import Mathlib

/-!
OpenSCAPS, the material database import (`src/material/MaterialDbModel.cpp`)

Shallow embedding of `MaterialDbModel::setProgress`, `MaterialDbModel::readSolcoreDb`
and `MaterialDbModel::readDfDb`, and the properties of the import that the design
document states about them.

Conventions of the embedding

* `double` is an abstract type `D`; the operations of Qt on it that the import uses
  (`QString::toDouble`, the division by `1e-9`, `QVariant::toString` of a number) are
  the fields of `Doubles D`.  Theorems hold for every `Doubles D`; concrete inputs are
  evaluated in `sampleDoubles`, which reads plain decimal numerals as rationals.
* The file system and the workbook are inputs: a directory is given by what
  `QDir::exists` and `QDir::entryInfoList` report, a file by the lines `readLine`
  delivers, a worksheet by its dimension and its `cellAt` function.
* `int` values are `Int`.  Row and column counts of a workbook are bounded by the
  xlsx format (1048576 rows, 16384 columns), so no `int` arithmetic of the import wraps.
* An object with automatic storage duration has an identity (its position in the
  list `objects`) and a flag telling whether its lifetime is still running.  The two
  maps of the model hold such identities, as the C++ maps hold addresses.
* An exception that leaves `readDfDb`, or undefined behaviour, is a `Fault`.
-/

namespace OpenSCAPS

/-! ## Qt strings and numbers -/

/-- The operations on `double` used by the import. `parse` is the conversion behind
`QString::toDouble(bool *ok)`: `none` when `ok` would be false. -/
structure Doubles (D : Type) where
  zero : D
  parse : String → Option D
  div1em9 : D → D
  fmt : D → String

/-- The call `QString::toDouble()`: the value of the numeral, `0.0` when the conversion fails. -/
def Doubles.toDouble {D : Type} (env : Doubles D) (s : String) : D :=
  (env.parse s).getD env.zero

/-- The characters matched by `\s` in `QRegularExpression("\\s+")` (no Unicode
properties option): space, tab, line feed, vertical tab, form feed, carriage return. -/
def isSpace (c : Char) : Bool :=
  c = ' ' || c = '\t' || c = '\n' || c = '\r' || c.toNat = 11 || c.toNat = 12

/-- Splitting at every maximal run of white space, empty parts kept
(`QString::split(const QRegularExpression &)` with the pattern `\s+`). The flag tells
whether the previous character belonged to a separator. -/
def splitWsGo : Bool → List Char → List (List Char)
  | _, [] => [[]]
  | prevWs, c :: cs =>
    if isSpace c then
      if prevWs then splitWsGo true cs else [] :: splitWsGo true cs
    else
      match splitWsGo false cs with
      | t :: ts => (c :: t) :: ts
      | [] => [[c]]

/-- The call `line.split(ws_regexp)`. -/
def splitWs (line : String) : List String :=
  (splitWsGo false line.data).map String.mk

/-- Splitting at every occurrence of one character, empty parts kept. -/
def splitCharGo (sep : Char) : List Char → List (List Char)
  | [] => [[]]
  | c :: cs =>
    if c = sep then [] :: splitCharGo sep cs
    else
      match splitCharGo sep cs with
      | t :: ts => (c :: t) :: ts
      | [] => [[c]]

/-- The call `QString::split(QChar)`. -/
def split (s : String) (sep : Char) : List String :=
  (splitCharGo sep s.data).map String.mk

/-- The call `QList::front()` of a list of strings (the lists it is applied to are never empty). -/
def front (l : List String) : String := l.headD ""

/-- The call `QList::back()` of a list of strings. -/
def back (l : List String) : String := l.getLastD ""

/-- The call `QFileInfo::baseName()`: the file name up to, not including, the first `.`. -/
def baseName (fileName : String) : String :=
  String.mk (fileName.data.takeWhile (fun c => c != '.'))

/-- The values a `QVariant` of a spreadsheet cell takes here. -/
inductive QVariant (D : Type) where
  | invalid : QVariant D
  | double (d : D) : QVariant D
  | string (s : String) : QVariant D
deriving DecidableEq

/-- The call `QVariant::toDouble()`: `0.0` for a variant that cannot be converted. -/
def QVariant.toDouble {D : Type} (env : Doubles D) : QVariant D → D
  | .invalid => env.zero
  | .double d => d
  | .string s => env.toDouble s

/-- The call `QVariant::toString()`. -/
def QVariant.toString {D : Type} (env : Doubles D) : QVariant D → String
  | .invalid => ""
  | .double d => env.fmt d
  | .string s => s

/-! ## The workbook -/

/-- A `QXlsx::Cell`, by what its two accessors return. -/
structure Cell (D : Type) where
  value : QVariant D
  readValue : QVariant D
deriving DecidableEq

/-- A `QXlsx::Worksheet`: `dimension().rowCount()`, `dimension().columnCount()`
and `cellAt(row, column)` (`none` for the null pointer). -/
structure Worksheet (D : Type) where
  rowCount : Int
  columnCount : Int
  cellAt : Int → Int → Option (Cell D)

/-- A `QXlsx::Document`: whether `load()` succeeds, and the sheets of its workbook
in workbook order, by name. -/
structure Document (D : Type) where
  load : Bool
  sheets : List (String × Worksheet D)

/-- The call `doc.sheet(name)`: the sheet of that name, if any. -/
def Document.sheet {D : Type} (doc : Document D) (name : String) : Option (Worksheet D) :=
  doc.sheets.lookup name

/-- The calls `workbook()->setActiveSheet(0)` and then `workbook()->activeSheet()`. -/
def Document.activeSheet {D : Type} (doc : Document D) : Option (Worksheet D) :=
  doc.sheets.head?.map Prod.snd

/-! ## Records, the maps and the model -/

/-- Modelled from the spec: the class `OpticMaterial` is declared in a header that is
not among the sources. A simple record holds one n curve and one k curve; here it holds
the five arguments of the constructor call at `MaterialDbModel.cpp:275`. -/
structure OpticMaterial (D : Type) where
  mat_name : String
  n_wl : List D
  n_data : List D
  k_wl : List D
  k_data : List D
deriving DecidableEq

/-- Modelled from the spec: the class `CompOpticMaterial` is declared in a header that
is not among the sources. An alloy record holds curves per composition fraction; here
it holds the five arguments of the constructor call at `MaterialDbModel.cpp:191`. -/
structure CompOpticMaterial (D : Type) where
  mat_name : String
  n_wl : List (D × List D)
  n_data : List (D × List D)
  k_wl : List (D × List D)
  k_data : List (D × List D)
deriving DecidableEq

/-- An object that the import constructs in automatic storage. -/
inductive Object (D : Type) where
  | optic (m : OpticMaterial D) : Object D
  | comp (m : CompOpticMaterial D) : Object D
deriving DecidableEq

/-- Lexicographic comparison of two character sequences by character code. -/
def codesLt : List Char → List Char → Bool
  | _, [] => false
  | [], _ :: _ => true
  | a :: as, b :: bs =>
    if a.toNat < b.toNat then true
    else if b.toNat < a.toNat then false
    else codesLt as bs

/-- The order of the keys of a `QMap<QString, T>` (`operator<` of `QString`). -/
def keyLt (a b : String) : Bool := codesLt a.data b.data

/-- The call `QMap<QString, T>::insert`: entries are kept in key order and the value of a key
that is present is replaced. -/
def qmapInsert {V : Type} (k : String) (v : V) : List (String × V) → List (String × V)
  | [] => [(k, v)]
  | (k1, v1) :: rest =>
    if keyLt k k1 then (k, v) :: (k1, v1) :: rest
    else if keyLt k1 k then (k1, v1) :: qmapInsert k v rest
    else (k, v) :: rest

/-- The lookup `QMap::value(key)` as an option. -/
def qmapFind {V : Type} (k : String) : List (String × V) → Option V
  | [] => none
  | (k1, v1) :: rest => if k1 = k then some v1 else qmapFind k rest

/-- The state of a `MaterialDbModel`: its members `m_list`, `m_comp_list` and
`import_progress`, the arguments of the `progressChanged` signals emitted so far, and
the objects constructed so far with the flag `true` while their lifetime runs. -/
structure MaterialDbModel (D : Type) where
  m_list : List (String × Nat)
  m_comp_list : List (String × Nat)
  import_progress : Int
  progressChanged : List Int
  objects : List (Object D × Bool)
deriving DecidableEq

/-- The function `MaterialDbModel::getProgress`. -/
def getProgress {D : Type} (st : MaterialDbModel D) : Int := st.import_progress

/-- The function `MaterialDbModel::setProgress`. -/
def setProgress {D : Type} (st : MaterialDbModel D) (progress : Int) : MaterialDbModel D :=
  if st.import_progress ≠ progress then
    { st with import_progress := progress, progressChanged := st.progressChanged ++ [progress] }
  else st

/-- Construction of an object in automatic storage: its address is returned. -/
def construct {D : Type} (st : MaterialDbModel D) (o : Object D) : MaterialDbModel D × Nat :=
  ({ st with objects := st.objects ++ [(o, true)] }, st.objects.length)

/-- End of the lifetime of the object at address `p` (its scope is left). -/
def destroy {D : Type} (st : MaterialDbModel D) (p : Nat) : MaterialDbModel D :=
  { st with objects := st.objects.modify (fun e => (e.1, false)) p }

/-- The object a pointer refers to, as long as its lifetime runs; `none` for a
pointer that dangles. -/
def deref {D : Type} (st : MaterialDbModel D) (p : Nat) : Option (Object D) :=
  match st.objects.get? p with
  | some (o, true) => some o
  | _ => none

/-- The object that was constructed at address `p`, alive or not. -/
def constructedAt {D : Type} (st : MaterialDbModel D) (p : Nat) : Option (Object D) :=
  (st.objects.get? p).map Prod.fst

/-- The `QVariantMap` returned by an import: its entries `status` and `matlist`. -/
structure ImportResult where
  status : Int
  matlist : List String
deriving DecidableEq, Repr

/-- An exception that leaves the import function, or undefined behaviour. -/
inductive Fault where
  | lengthError : Fault
  | divisionByZero : Fault
  | nullDereference : Fault
deriving DecidableEq, Repr

/-! ## `readSolcoreDb` -/

/-- What the file system shows of a material directory `mat_dir`: `n_dir.exists()`,
`k_dir.exists()`, and the file names of `n_dir.entryInfoList()` and
`k_dir.entryInfoList()`, in the order of the listing. The listings are inputs: they
hold whatever entries the file engine behind `QDir` reports. `entryInfoList()` is
called without a filter, so the listing of a directory on disk includes the entries
`.` and `..`; the import treats every entry alike. -/
structure MatDir where
  nExists : Bool
  kExists : Bool
  n_flist : List String
  k_flist : List String

/-- The inputs of `readSolcoreDb`: whether the ini file opens, the predicate
`par_sys.isComposition(name, "x")` of the `Parameters` group, the `Materials` group in
the key order of `mat_map`, and `QFile(fileName)`: `none` when `open` fails, otherwise
the lines that `readLine` delivers until `atEnd`. A file is opened by its bare file
name, as the source does with `n_info.fileName()`. -/
structure SolcoreDb where
  iniOpens : Bool
  isComposition : String → Bool
  mat_map : List (String × MatDir)
  openFile : String → Option (List String)

/-- The `while (not stream.atEnd())` loop over the lines of one data file; `none` is
the `std::runtime_error` thrown for a line that does not split into two parts. -/
def readLines {D : Type} (env : Doubles D) :
    List String → List D → List D → Option (List D × List D)
  | [], frac_wl, frac_data => some (frac_wl, frac_data)
  | line :: rest, frac_wl, frac_data =>
    let ln_data := splitWs line
    if ln_data.length ≠ 2 then none
    else readLines env rest (frac_wl ++ [env.toDouble (front ln_data)])
      (frac_data ++ [env.toDouble (back ln_data)])

/-- The `for (const QFileInfo& n_info : n_flist)` loop (and its twin over `k_flist`).
It returns `mat_list` as it stands when the loop ends or throws, and the two vectors
of (fraction, values) pairs, or `none` when a `std::runtime_error` was thrown. -/
def readFiles {D : Type} (env : Doubles D) (openFile : String → Option (List String))
    (mat_name : String) :
    List String → List String → List (D × List D) → List (D × List D) →
      List String × Option (List (D × List D) × List (D × List D))
  | [], mat_list, wl, data => (mat_list, some (wl, data))
  | fileName :: rest, mat_list, wl, data =>
    let main_fraction_str := front (split (baseName fileName) '_')
    let mat_list := mat_list ++ [mat_name ++ main_fraction_str]
    match openFile fileName with
    | none => (mat_list, none)
    | some lines =>
      match readLines env lines [] [] with
      | none => (mat_list, none)
      | some (frac_wl, frac_data) =>
        readFiles env openFile mat_name rest mat_list
          (wl ++ [(env.toDouble main_fraction_str, frac_wl)])
          (data ++ [(env.toDouble main_fraction_str, frac_data)])

/-- The body of the `try` block for the material at position `idx` of `mat_map`.
The flag of the result is `true` when a `std::runtime_error` was thrown. -/
def tryMaterial {D : Type} (env : Doubles D) (db : SolcoreDb) (mat_name : String)
    (mat_dir : MatDir) (idx : Nat) (st : MaterialDbModel D) (mat_list : List String) :
    MaterialDbModel D × List String × Bool :=
  if db.isComposition mat_name then
    if !mat_dir.nExists || !mat_dir.kExists then (st, mat_list, true)
    else
      match readFiles env db.openFile mat_name mat_dir.n_flist mat_list [] [] with
      | (mat_list, none) => (st, mat_list, true)
      | (mat_list, some (n_wl, n_data)) =>
        match readFiles env db.openFile mat_name mat_dir.k_flist mat_list [] [] with
        | (mat_list, none) => (st, mat_list, true)
        | (mat_list, some (k_wl, k_data)) =>
          let (st, opt_mat) := construct st (.comp ⟨mat_name, n_wl, n_data, k_wl, k_data⟩)
          let st := { st with m_comp_list := qmapInsert mat_name opt_mat st.m_comp_list }
          let st := destroy st opt_mat
          (setProgress st (Int.tdiv idx db.mat_map.length), mat_list, false)
  else (setProgress st (Int.tdiv idx db.mat_map.length), mat_list, false)

/-- The loop over `mat_map` from the material at position `idx` on, with the `catch`
clause and the final `return`. -/
def materialLoop {D : Type} (env : Doubles D) (db : SolcoreDb) :
    List (String × MatDir) → Nat → MaterialDbModel D → List String →
      MaterialDbModel D × ImportResult
  | [], _, st, mat_list => (st, ⟨0, mat_list⟩)
  | (mat_name, mat_dir) :: rest, idx, st, mat_list =>
    match tryMaterial env db mat_name mat_dir idx st mat_list with
    | (st, mat_list, true) => (st, ⟨2, mat_list⟩)
    | (st, mat_list, false) => materialLoop env db rest (idx + 1) st mat_list

/-- The function `MaterialDbModel::readSolcoreDb`. -/
def readSolcoreDb {D : Type} (env : Doubles D) (db : SolcoreDb) (st : MaterialDbModel D) :
    MaterialDbModel D × ImportResult :=
  if !db.iniOpens then (st, ⟨1, []⟩)
  else materialLoop env db db.mat_map 0 st []

/-! ## `readDfDb` -/

/-- The loop `for (int rc = 2; rc <= maxRow; rc++)` that fills `wls`, from row `rc` on. -/
def readWls {D : Type} (env : Doubles D) (wsheet : Worksheet D) (maxRow : Int) (rc : Int)
    (wls : List D) : List D :=
  if rc ≤ maxRow then
    match wsheet.cellAt rc 1 with
    | some cell =>
      readWls env wsheet maxRow (rc + 1)
        (wls.set (rc - 2).toNat (env.div1em9 (cell.value.toDouble env)))
    | none => readWls env wsheet maxRow (rc + 1) wls
  else wls
termination_by (maxRow + 1 - rc).toNat
decreasing_by all_goals omega

/-- The loop `for (int rc = 2; rc <= maxRow; rc++)` that fills `n_list` and `k_list`
from the columns `cc` and `cc + 1`, from row `rc` on. -/
def readNK {D : Type} (env : Doubles D) (wsheet : Worksheet D) (maxRow : Int) (cc : Int)
    (rc : Int) (n_list k_list : List D) : List D × List D :=
  if rc ≤ maxRow then
    let n_list :=
      match wsheet.cellAt rc cc with
      | some cell => n_list.set (rc - 2).toNat (cell.readValue.toDouble env)
      | none => n_list
    let k_list :=
      match wsheet.cellAt rc (cc + 1) with
      | some cell => k_list.set (rc - 2).toNat (cell.readValue.toDouble env)
      | none => k_list
    readNK env wsheet maxRow cc (rc + 1) n_list k_list
  else (n_list, k_list)
termination_by (maxRow + 1 - rc).toNat
decreasing_by all_goals omega

/-- The loop `for (int cc = 2; cc < maxCol; cc += 2)`, from column `cc` on. A header
cell that is absent is dereferenced as a null pointer. -/
def columnLoop {D : Type} (env : Doubles D) (wsheet : Worksheet D) (maxRow maxCol : Int)
    (wls : List D) (cc : Int) (st : MaterialDbModel D) (mat_list : List String) :
    Except Fault (MaterialDbModel D × List String) :=
  if cc < maxCol then
    let n_list := List.replicate (maxRow - 1).toNat env.zero
    let k_list := List.replicate (maxRow - 1).toNat env.zero
    match wsheet.cellAt 1 cc with
    | none => .error .nullDereference
    | some header =>
      let mat_name := front (split (header.readValue.toString env) '_')
      let mat_list := mat_list ++ [mat_name]
      let (n_list, k_list) := readNK env wsheet maxRow cc 2 n_list k_list
      let n_wl := wls.take n_list.length
      let k_wl := wls.take k_list.length
      let (st, opt_mat) := construct st (.optic ⟨mat_name, n_wl, n_list, k_wl, k_list⟩)
      let st := { st with m_list := qmapInsert mat_name opt_mat st.m_list }
      let st := setProgress st (Int.tdiv (cc + 1) maxCol)
      let st := destroy st opt_mat
      columnLoop env wsheet maxRow maxCol wls (cc + 2) st mat_list
  else .ok (st, mat_list)
termination_by (maxCol - cc).toNat
decreasing_by all_goals omega

/-- The function `MaterialDbModel::readDfDb`. The vector `wls(maxRow - 1)` cannot be constructed
when `maxRow - 1` is negative (`std::length_error`), and `1 / maxCol` is undefined for
`maxCol = 0`. -/
def readDfDb {D : Type} (env : Doubles D) (doc : Document D) (st : MaterialDbModel D) :
    Except Fault (MaterialDbModel D × ImportResult) :=
  if !doc.load then .ok (st, ⟨1, []⟩)
  else
    match doc.sheet "data" with
    | none => .ok (st, ⟨2, []⟩)
    | some _ =>
      match doc.activeSheet with
      | none => .ok (st, ⟨2, []⟩)
      | some wsheet =>
        let maxRow := wsheet.rowCount
        let maxCol := wsheet.columnCount
        if maxRow - 1 < 0 then .error .lengthError
        else
          let wls := readWls env wsheet maxRow 2 (List.replicate (maxRow - 1).toNat env.zero)
          if maxCol = 0 then .error .divisionByZero
          else
            let st := setProgress st (Int.tdiv 1 maxCol)
            match columnLoop env wsheet maxRow maxCol wls 2 st [] with
            | .error e => .error e
            | .ok (st, mat_list) => .ok (st, ⟨0, mat_list⟩)

/-! ## A concrete instance of the numbers, for evaluation at concrete inputs -/

/-- The value of a string of decimal digits. -/
def digitsValue (cs : List Char) : Nat :=
  cs.foldl (fun acc c => 10 * acc + (c.toNat - 48)) 0

/-- A plain decimal numeral (optional sign, digits, optional `.` and digits) read as a
rational number; `none` for any other string. -/
def parseDecimal (s : String) : Option ℚ :=
  let cs := s.data
  let body := match cs with
    | '-' :: r => r
    | '+' :: r => r
    | _ => cs
  let ip := body.takeWhile (fun c => c != '.')
  let fp := (body.dropWhile (fun c => c != '.')).drop 1
  if (ip ++ fp).isEmpty || !(ip ++ fp).all Char.isDigit then none
  else if cs.head? = some '-' then
    some (mkRat (-(digitsValue (ip ++ fp) : Int)) (10 ^ fp.length))
  else some (mkRat (digitsValue (ip ++ fp)) (10 ^ fp.length))

/-- Numbers as rationals: decimal numerals without exponent are read exactly, the
division by `1e-9` is exact, and a whole number is printed by its digits. -/
def sampleDoubles : Doubles ℚ where
  zero := 0
  parse := parseDecimal
  div1em9 := fun d => mkRat (d.num * 1000000000) d.den
  fmt := fun d => toString d.num

/-- The model before any import. -/
def emptyModel : MaterialDbModel ℚ where
  m_list := []
  m_comp_list := []
  import_progress := 0
  progressChanged := []
  objects := []

/-- A line splits into exactly two parts. -/
def lineOk (line : String) : Bool := decide ((splitWs line).length = 2)

/-- A data file can be opened and each of its lines splits into exactly two parts. -/
def fileOk (db : SolcoreDb) (fileName : String) : Bool :=
  match db.openFile fileName with
  | none => false
  | some lines => lines.all lineOk

/-- Ingestion of an alloy material fails: its `n` or `k` folder does not exist, or
one of its data files cannot be opened or has a line that does not split in two. -/
def dirFails (db : SolcoreDb) (dir : MatDir) : Bool :=
  !dir.nExists || !dir.kExists || (dir.n_flist ++ dir.k_flist).any (fun f => !fileOk db f)

/-- The name that enters `matlist` for a data file of a material. -/
def collectedName (mat_name fileName : String) : String :=
  mat_name ++ front (split (baseName fileName) '_')

/-- The files of a listing up to and including the first one that fails. -/
def upToFailure (db : SolcoreDb) : List String → List String
  | [] => []
  | f :: rest => if fileOk db f then f :: upToFailure db rest else [f]

/-- The names collected for a material that is ingested without error: one per file
of `n`, then one per file of `k`; none for a material that is not an alloy. -/
def namesOfMaterial (db : SolcoreDb) (m : String × MatDir) : List String :=
  if db.isComposition m.1 then (m.2.n_flist ++ m.2.k_flist).map (collectedName m.1) else []

/-- The names collected for an alloy material whose ingestion fails, up to the
failure: the name of a file is collected before the file is opened. -/
def namesBeforeFailure (db : SolcoreDb) (mat_name : String) (dir : MatDir) : List String :=
  if !dir.nExists || !dir.kExists then []
  else (upToFailure db (dir.n_flist ++ dir.k_flist)).map (collectedName mat_name)

/-- The wavelengths of the lines of a file, in file order. -/
def wavelengthsOf {D : Type} (env : Doubles D) (lines : List String) : List D :=
  lines.map (fun line => env.toDouble (front (splitWs line)))

/-- The values of the lines of a file, in file order. -/
def valuesOf {D : Type} (env : Doubles D) (lines : List String) : List D :=
  lines.map (fun line => env.toDouble (back (splitWs line)))

/-- The (fraction, wavelengths) entries of a listing, in listing order. -/
def wlEntries {D : Type} (env : Doubles D) (db : SolcoreDb) (files : List String) :
    List (D × List D) :=
  files.map (fun f => (env.toDouble (front (split (baseName f) '_')),
    wavelengthsOf env ((db.openFile f).getD [])))

/-- The (fraction, values) entries of a listing, in listing order. -/
def dataEntries {D : Type} (env : Doubles D) (db : SolcoreDb) (files : List String) :
    List (D × List D) :=
  files.map (fun f => (env.toDouble (front (split (baseName f) '_')),
    valuesOf env ((db.openFile f).getD [])))

/-- The record built for an alloy material whose files are all read. -/
def recordOf {D : Type} (env : Doubles D) (db : SolcoreDb) (m : String × MatDir) :
    CompOpticMaterial D :=
  ⟨m.1, wlEntries env db m.2.n_flist, dataEntries env db m.2.n_flist,
    wlEntries env db m.2.k_flist, dataEntries env db m.2.k_flist⟩

/-- The model after one material was processed without error: for an alloy, its
record was constructed, its address inserted under the material name, and the record
destroyed at the end of its block; then the progress was set (to the quotient 0). -/
def afterMaterial {D : Type} (env : Doubles D) (db : SolcoreDb) (st : MaterialDbModel D)
    (m : String × MatDir) : MaterialDbModel D :=
  if db.isComposition m.1 then
    setProgress
      { st with
        m_comp_list := qmapInsert m.1 st.objects.length st.m_comp_list,
        objects := st.objects ++ [(.comp (recordOf env db m), false)] } 0
  else setProgress st 0

/-- Every material of the list is ingested without error. -/
abbrev allIngest (db : SolcoreDb) (l : List (String × MatDir)) : Prop :=
  ∀ m ∈ l, db.isComposition m.1 = true → dirFails db m.2 = false

/-- Three alloy materials; a line of the second has three parts. -/
def dbThreeTokens : SolcoreDb where
  iniOpens := true
  isComposition := fun _ => true
  mat_map :=
    [("AlGaAs", ⟨true, true, ["0_AlGaAs.txt"], ["0_AlGaAs.txt"]⟩),
     ("InGaAs", ⟨true, true, ["0_InGaAs.txt", "1_InGaAs.txt"], ["0_InGaAs.txt"]⟩),
     ("SiGe", ⟨true, true, ["0_SiGe.txt"], ["0_SiGe.txt"]⟩)]
  openFile := fun f =>
    if f = "0_AlGaAs.txt" then some ["300 3.5", "310 3.4"]
    else if f = "0_InGaAs.txt" then some ["300 3.6"]
    else if f = "1_InGaAs.txt" then some ["300 3.7", "310 3.8 0.1"]
    else if f = "0_SiGe.txt" then some ["300 4.0"]
    else none

/-- The line consists of the part `a`, one non-empty run of white space, and the part
`b`, where neither part contains white space (either part may be empty). -/
def oneSeparator (line : String) (a b : List Char) : Prop :=
  ∃ w : List Char, w ≠ [] ∧ (∀ c ∈ w, isSpace c = true) ∧ (∀ c ∈ a, isSpace c = false) ∧
    (∀ c ∈ b, isSpace c = false) ∧ line.data = a ++ w ++ b

/-- One alloy material whose `n` file contains an empty line between two well-formed
lines. -/
def dbEmptyLine : SolcoreDb where
  iniOpens := true
  isComposition := fun _ => true
  mat_map := [("AlGaAs", ⟨true, true, ["0_AlGaAs.txt"], []⟩)]
  openFile := fun f => if f = "0_AlGaAs.txt" then some ["300 3.5", "", "310 3.4"] else none

/-- One alloy material whose `n` file has a line of two parts, the first of which is
no numeral. -/
def dbNonNumeric : SolcoreDb where
  iniOpens := true
  isComposition := fun _ => true
  mat_map := [("AlGaAs", ⟨true, true, ["0_AlGaAs.txt"], []⟩)]
  openFile := fun f => if f = "0_AlGaAs.txt" then some ["abc 3.5"] else none

/-- One alloy material whose `n` file repeats a wavelength and then goes down. -/
def dbUnordered : SolcoreDb where
  iniOpens := true
  isComposition := fun _ => true
  mat_map := [("AlGaAs", ⟨true, true, ["0_AlGaAs.txt"], []⟩)]
  openFile := fun f =>
    if f = "0_AlGaAs.txt" then some ["300 3.5", "300 3.6", "290 3.7"] else none

/-- One alloy material with the fraction 0 under `n` only and the fraction 1 under
`k` only. -/
def dbMismatch : SolcoreDb where
  iniOpens := true
  isComposition := fun _ => true
  mat_map := [("AlGaAs", ⟨true, true, ["0_AlGaAs.txt"], ["1_AlGaAs.txt"]⟩)]
  openFile := fun f =>
    if f = "0_AlGaAs.txt" then some ["300 3.5"]
    else if f = "1_AlGaAs.txt" then some ["300 0.1"]
    else none

/-- One alloy material whose data files carry the fraction 0.5 in their name. -/
def dbHalf : SolcoreDb where
  iniOpens := true
  isComposition := fun _ => true
  mat_map := [("AlGaAs", ⟨true, true, ["0.5_AlGaAs.txt"], ["0.5_AlGaAs.txt"]⟩)]
  openFile := fun f => if f = "0.5_AlGaAs.txt" then some ["300 3.5"] else none

/-! ## Vocabulary of the statements about `readDfDb` -/

/-- The value ingested for a cell of an n or k column: zero for a cell that is
absent, otherwise `readValue().toDouble()` of the cell. -/
def cellDouble {D : Type} (env : Doubles D) : Option (Cell D) → D
  | none => env.zero
  | some cell => cell.readValue.toDouble env

/-- The wavelength ingested for a cell of column 1: zero for a cell that is absent,
otherwise `value().toDouble() / 1e-9`. -/
def cellWavelength {D : Type} (env : Doubles D) : Option (Cell D) → D
  | none => env.zero
  | some cell => env.div1em9 (cell.value.toDouble env)

/-- The values of the data rows 2..maxRow of a column, row by row. -/
def columnValues {D : Type} (env : Doubles D) (wsheet : Worksheet D) (col : Int) : List D :=
  (List.range (wsheet.rowCount - 1).toNat).map
    (fun (i : Nat) => cellDouble env (wsheet.cellAt ((i : Int) + 2) col))

/-- The wavelengths of the data rows 2..maxRow, row by row. -/
def wavelengthColumn {D : Type} (env : Doubles D) (wsheet : Worksheet D) : List D :=
  (List.range (wsheet.rowCount - 1).toNat).map
    (fun (i : Nat) => cellWavelength env (wsheet.cellAt ((i : Int) + 2) 1))

/-- A text cut before its first underscore (the whole text when it has none). -/
def cutAtUnderscore (s : String) : String :=
  String.mk (s.data.takeWhile (fun c => c != '_'))

/-- The identifier derived from the header of a column: its text cut before the
first underscore. -/
def headerName {D : Type} (env : Doubles D) (wsheet : Worksheet D) (col : Int) : String :=
  match wsheet.cellAt 1 col with
  | some header => cutAtUnderscore (header.readValue.toString env)
  | none => ""

/-- The number of adjacent column pairs (2,3), (4,5), ... of a sheet with `maxCol`
columns: the floor of `(maxCol - 1) / 2`. -/
def pairCount (maxCol : Int) : Nat := ((maxCol - 1) / 2).toNat

/-- The n column of the pair with index `j`, counted from 0: column `2 * (j + 1)`. -/
def pairColumn (j : Nat) : Int := 2 * ((j : Int) + 1)

/-- The record of the column pair with index `j`. -/
def pairRecord {D : Type} (env : Doubles D) (wsheet : Worksheet D) (j : Nat) :
    OpticMaterial D :=
  ⟨headerName env wsheet (pairColumn j),
    wavelengthColumn env wsheet, columnValues env wsheet (pairColumn j),
    wavelengthColumn env wsheet, columnValues env wsheet (pairColumn j + 1)⟩

/-- The model after the column pair with index `j` was processed: its record was
constructed, its address inserted under the identifier of the pair, the progress set,
and the record destroyed at the end of the loop body. -/
def afterPair {D : Type} (env : Doubles D) (wsheet : Worksheet D) (st : MaterialDbModel D)
    (j : Nat) : MaterialDbModel D :=
  setProgress
    { st with
      m_list := qmapInsert (headerName env wsheet (pairColumn j)) st.objects.length st.m_list,
      objects := st.objects ++ [(.optic (pairRecord env wsheet j), false)] }
    (Int.tdiv (pairColumn j + 1) wsheet.columnCount)

/-- The workbook can be loaded, has a sheet named `data`, and `wsheet` is the sheet
that `readDfDb` reads; this sheet has at least the header row and at least one column,
and the header cell of every column pair is present. -/
structure Ingestible {D : Type} (doc : Document D) (wsheet : Worksheet D) : Prop where
  loads : doc.load = true
  hasData : (doc.sheet "data").isSome = true
  active : doc.activeSheet = some wsheet
  rows : 1 ≤ wsheet.rowCount
  cols : 1 ≤ wsheet.columnCount
  headers : ∀ j : Nat, j < pairCount wsheet.columnCount →
    (wsheet.cellAt 1 (pairColumn j)).isSome = true

/-- A cell that holds a number. -/
def numberCell (d : ℚ) : Cell ℚ := ⟨.double d, .double d⟩

/-- A cell that holds a text. -/
def textCell (s : String) : Cell ℚ := ⟨.string s, .string s⟩

/-- A cell that exists and is blank. -/
def blankCell : Cell ℚ := ⟨.invalid, .invalid⟩

/-- A sheet of 3 rows and 6 columns: the wavelength column, the pairs `Si` and
`GaAs`, and a trailing sixth column without a partner. In the last row the n cell of
`Si` is absent and its k cell is blank. -/
def sheetTwoPairs : Worksheet ℚ where
  rowCount := 3
  columnCount := 6
  cellAt := fun r c =>
    List.lookup (r, c)
      [((1, 1), textCell "wavelength"), ((1, 2), textCell "Si_n"), ((1, 3), textCell "Si_k"),
       ((1, 4), textCell "GaAs_n"), ((1, 5), textCell "GaAs_k"), ((1, 6), textCell "Ge_n"),
       ((2, 1), numberCell (mkRat 3 10000000)), ((2, 2), numberCell (mkRat 7 2)),
       ((2, 3), numberCell (mkRat 1 10)), ((2, 4), numberCell (mkRat 33 10)),
       ((2, 5), numberCell (mkRat 2 10)), ((2, 6), numberCell 4),
       ((3, 1), numberCell (mkRat 4 10000000)), ((3, 3), blankCell),
       ((3, 4), numberCell (mkRat 34 10)), ((3, 5), numberCell (mkRat 3 10)),
       ((3, 6), numberCell 4)]

/-- A workbook whose only sheet is `sheetTwoPairs`, named `data`. -/
def docTwoPairs : Document ℚ where
  load := true
  sheets := [("data", sheetTwoPairs)]

/-- A sheet of 2 rows and 5 columns whose two column pairs both derive the
identifier `Si`. -/
def sheetDuplicate : Worksheet ℚ where
  rowCount := 2
  columnCount := 5
  cellAt := fun r c =>
    List.lookup (r, c)
      [((1, 1), textCell "wavelength"), ((1, 2), textCell "Si_n"), ((1, 3), textCell "Si_k"),
       ((1, 4), textCell "Si_n2"), ((1, 5), textCell "Si_k2"),
       ((2, 1), numberCell (mkRat 3 10000000)), ((2, 2), numberCell (mkRat 7 2)),
       ((2, 3), numberCell (mkRat 1 10)), ((2, 4), numberCell (mkRat 36 10)),
       ((2, 5), numberCell (mkRat 2 10))]

/-- A workbook whose only sheet is `sheetDuplicate`, named `data`. -/
def docDuplicate : Document ℚ where
  load := true
  sheets := [("data", sheetDuplicate)]

/-- One alloy material with one fraction, given by a file under `n` and a file
under `k`. -/
def dbOneFraction : SolcoreDb where
  iniOpens := true
  isComposition := fun _ => true
  mat_map := [("AlGaAs", ⟨true, true, ["0_AlGaAs.txt"], ["0_AlGaAs.txt"]⟩)]
  openFile := fun f => if f = "0_AlGaAs.txt" then some ["300 3.5"] else none

/-! ## Inputs for the statements about the sheet read, the failures and the progress -/

/-- A sheet of 2 rows and 3 columns with the single column pair `Ge`. -/
def sheetCover : Worksheet ℚ where
  rowCount := 2
  columnCount := 3
  cellAt := fun r c =>
    List.lookup (r, c)
      [((1, 1), textCell "lambda"), ((1, 2), textCell "Ge_n"), ((1, 3), textCell "Ge_k"),
       ((2, 1), numberCell (mkRat 5 10000000)), ((2, 2), numberCell 4),
       ((2, 3), numberCell (mkRat 1 2))]

/-- A workbook whose first sheet is `sheetCover`, named `cover`, and whose second
sheet is `sheetTwoPairs`, named `data`. -/
def docDataSecond : Document ℚ where
  load := true
  sheets := [("cover", sheetCover), ("data", sheetTwoPairs)]

/-- A workbook that cannot be loaded. -/
def docUnloadable : Document ℚ where
  load := false
  sheets := []

/-- A loadable workbook whose only sheet is named `Sheet1`. -/
def docNoData : Document ℚ where
  load := true
  sheets := [("Sheet1", sheetTwoPairs)]

/-- A sheet that has only the header row, with the single column pair `Si`. -/
def sheetHeaderOnly : Worksheet ℚ where
  rowCount := 1
  columnCount := 3
  cellAt := fun r c =>
    List.lookup (r, c)
      [((1, 1), textCell "wavelength"), ((1, 2), textCell "Si_n"), ((1, 3), textCell "Si_k")]

/-- A workbook whose only sheet is `sheetHeaderOnly`, named `data`. -/
def docHeaderOnly : Document ℚ where
  load := true
  sheets := [("data", sheetHeaderOnly)]

/-- An empty sheet: its dimension has 0 rows and 0 columns. -/
def sheetEmpty : Worksheet ℚ where
  rowCount := 0
  columnCount := 0
  cellAt := fun _ _ => none

/-- A workbook whose only sheet is `sheetEmpty`, named `data`. -/
def docEmpty : Document ℚ where
  load := true
  sheets := [("data", sheetEmpty)]

/-- Three alloy materials that are all ingested without error. -/
def dbThreeAlloys : SolcoreDb where
  iniOpens := true
  isComposition := fun _ => true
  mat_map :=
    [("AlGaAs", ⟨true, true, ["0_AlGaAs.txt"], ["0_AlGaAs.txt"]⟩),
     ("InGaAs", ⟨true, true, ["0_InGaAs.txt"], ["0_InGaAs.txt"]⟩),
     ("SiGe", ⟨true, true, ["0_SiGe.txt"], ["0_SiGe.txt"]⟩)]
  openFile := fun f =>
    if f = "0_AlGaAs.txt" then some ["300 3.5", "310 3.4"]
    else if f = "0_InGaAs.txt" then some ["300 3.6"]
    else if f = "0_SiGe.txt" then some ["300 4.0"]
    else none

/-- The effect of one call `setProgress(v)` on the pair of the stored progress and
the list of the values emitted so far. -/
def stepProgress (p : Int × List Int) (v : Int) : Int × List Int :=
  if p.1 ≠ v then (v, p.2 ++ [v]) else p

/-- The stored progress of a model and the values it has emitted so far. -/
def progressView {D : Type} (st : MaterialDbModel D) : Int × List Int :=
  (st.import_progress, st.progressChanged)

/-! ## Inputs for the statements about directories on disk and about formula cells -/

/-- A sheet of 2 rows and 3 columns whose data cells are formula cells: each holds a
number (`value()`), while `readValue()` gives the text of its formula. -/
def sheetFormula : Worksheet ℚ where
  rowCount := 2
  columnCount := 3
  cellAt := fun r c =>
    List.lookup (r, c)
      [((1, 1), textCell "wavelength"), ((1, 2), textCell "Si_n"), ((1, 3), textCell "Si_k"),
       ((2, 1), ⟨.double (mkRat 3 10000000), .string "=3/10000000"⟩),
       ((2, 2), ⟨.double 7, .string "=2*3.5"⟩),
       ((2, 3), numberCell (mkRat 1 10))]

/-- A workbook whose only sheet is `sheetFormula`, named `data`. -/
def docFormula : Document ℚ where
  load := true
  sheets := [("data", sheetFormula)]

/-! ## Properties -/

/-! ### Lists and maps -/

theorem modify_length_append {α : Type} (f : α → α) (l : List α) (a : α) :
    List.modify f l.length (l ++ [a]) = l ++ [f a] := by
  induction l with
  | nil => rfl
  | cons x xs ih => simp [List.modify_succ_cons, ih]

theorem codesLt_irrefl (l : List Char) : codesLt l l = false := by
  induction l with
  | nil => rfl
  | cons a as ih => simp [codesLt, ih]

theorem codesLt_total (l1 l2 : List Char) (h1 : codesLt l1 l2 = false)
    (h2 : codesLt l2 l1 = false) : l1 = l2 := by
  induction l1 generalizing l2 with
  | nil =>
    cases l2 with
    | nil => rfl
    | cons b bs => simp [codesLt] at h1
  | cons a as ih =>
    cases l2 with
    | nil => simp [codesLt] at h2
    | cons b bs =>
      by_cases hab : a.toNat < b.toNat
      · simp [codesLt, hab] at h1
      · by_cases hba : b.toNat < a.toNat
        · simp [codesLt, hba, hab] at h2
        · have heq : a = b := by
            apply Char.ext
            apply UInt32.ext
            have : a.toNat = b.toNat := by omega
            exact this
          subst heq
          simp only [codesLt, hab, if_false] at h1 h2
          rw [ih bs h1 h2]

theorem keyLt_ne (a b : String) (h : keyLt a b = true) : a ≠ b := by
  intro hab
  subst hab
  simp [keyLt, codesLt_irrefl] at h

theorem keyLt_total (a b : String) (h1 : keyLt a b = false) (h2 : keyLt b a = false) :
    a = b := by
  have := codesLt_total a.data b.data h1 h2
  exact String.ext this

theorem qmapFind_insert_self {V : Type} (k : String) (v : V) (m : List (String × V)) :
    qmapFind k (qmapInsert k v m) = some v := by
  induction m with
  | nil => simp [qmapInsert, qmapFind]
  | cons e rest ih =>
    obtain ⟨k1, v1⟩ := e
    by_cases h1 : keyLt k k1 = true
    · simp [qmapInsert, qmapFind, h1]
    · by_cases h2 : keyLt k1 k = true
      · have hne : k1 ≠ k := keyLt_ne k1 k h2
        simp [qmapInsert, qmapFind, h1, h2, hne, ih]
      · simp [qmapInsert, qmapFind, h1, h2]

theorem qmapFind_insert_other {V : Type} (k j : String) (v : V) (m : List (String × V))
    (hjk : k ≠ j) : qmapFind j (qmapInsert k v m) = qmapFind j m := by
  induction m with
  | nil => simp [qmapInsert, qmapFind, hjk]
  | cons e rest ih =>
    obtain ⟨k1, v1⟩ := e
    by_cases h1 : keyLt k k1 = true
    · simp [qmapInsert, qmapFind, h1, hjk]
    · by_cases h2 : keyLt k1 k = true
      · simp [qmapInsert, qmapFind, h1, h2, ih]
      · have hk : k1 = k :=
          keyLt_total k1 k (by simpa using h2) (by simpa using h1)
        have hne : k1 ≠ j := hk ▸ hjk
        simp [qmapInsert, qmapFind, h1, h2, hjk, hne]

/-! ### The loops of `readSolcoreDb` -/

theorem readLines_eq {D : Type} (env : Doubles D) (lines : List String) (wl data : List D) :
    readLines env lines wl data =
      if lines.all lineOk then
        some (wl ++ wavelengthsOf env lines, data ++ valuesOf env lines)
      else none := by
  induction lines generalizing wl data with
  | nil => simp [readLines, wavelengthsOf, valuesOf]
  | cons line rest ih =>
    by_cases h : (splitWs line).length = 2
    · simp [readLines, h, ih, lineOk, wavelengthsOf, valuesOf]
    · simp [readLines, h, lineOk]

theorem upToFailure_of_ok (db : SolcoreDb) (files : List String)
    (h : ∀ f ∈ files, fileOk db f = true) : upToFailure db files = files := by
  induction files with
  | nil => rfl
  | cons f rest ih =>
    have hf : fileOk db f = true := h f (by simp)
    have hr : ∀ g ∈ rest, fileOk db g = true := fun g hg => h g (by simp [hg])
    simp [upToFailure, hf, ih hr]

theorem upToFailure_append_fail (db : SolcoreDb) (l1 l2 : List String)
    (h : l1.any (fun f => !fileOk db f) = true) :
    upToFailure db (l1 ++ l2) = upToFailure db l1 := by
  induction l1 with
  | nil => simp at h
  | cons f rest ih =>
    by_cases hf : fileOk db f = true
    · have hr : rest.any (fun f => !fileOk db f) = true := by simpa [hf] using h
      simp [upToFailure, hf, ih hr]
    · simp [upToFailure, hf]

theorem upToFailure_append_ok (db : SolcoreDb) (l1 l2 : List String)
    (h : ∀ f ∈ l1, fileOk db f = true) :
    upToFailure db (l1 ++ l2) = l1 ++ upToFailure db l2 := by
  induction l1 with
  | nil => rfl
  | cons f rest ih =>
    have hf : fileOk db f = true := h f (by simp)
    have hr : ∀ g ∈ rest, fileOk db g = true := fun g hg => h g (by simp [hg])
    simp [upToFailure, hf, ih hr]

theorem readFiles_ok {D : Type} (env : Doubles D) (db : SolcoreDb) (mat_name : String)
    (files : List String) (mat_list : List String) (wl data : List (D × List D))
    (h : ∀ f ∈ files, fileOk db f = true) :
    readFiles env db.openFile mat_name files mat_list wl data =
      (mat_list ++ files.map (collectedName mat_name),
        some (wl ++ wlEntries env db files, data ++ dataEntries env db files)) := by
  induction files generalizing mat_list wl data with
  | nil => simp [readFiles, wlEntries, dataEntries]
  | cons f rest ih =>
    have hf : fileOk db f = true := h f (by simp)
    have hr : ∀ g ∈ rest, fileOk db g = true := fun g hg => h g (by simp [hg])
    unfold fileOk at hf
    cases hopen : db.openFile f with
    | none => simp [hopen] at hf
    | some lines =>
      simp only [hopen] at hf
      have ih2 := ih (mat_list ++ [mat_name ++ front (split (baseName f) '_')])
        (wl ++ [(env.toDouble (front (split (baseName f) '_')), wavelengthsOf env lines)])
        (data ++ [(env.toDouble (front (split (baseName f) '_')), valuesOf env lines)]) hr
      simp [readFiles, hopen, readLines_eq, hf, ih2, collectedName, wlEntries, dataEntries]

theorem readFiles_fail {D : Type} (env : Doubles D) (db : SolcoreDb) (mat_name : String)
    (files : List String) (mat_list : List String) (wl data : List (D × List D))
    (h : files.any (fun f => !fileOk db f) = true) :
    readFiles env db.openFile mat_name files mat_list wl data =
      (mat_list ++ (upToFailure db files).map (collectedName mat_name), none) := by
  induction files generalizing mat_list wl data with
  | nil => simp at h
  | cons f rest ih =>
    cases hopen : db.openFile f with
    | none => simp [readFiles, hopen, upToFailure, fileOk, collectedName]
    | some lines =>
      by_cases hl : lines.all lineOk = true
      · have hf : fileOk db f = true := by simp [fileOk, hopen, hl]
        have hr : rest.any (fun f => !fileOk db f) = true := by simpa [hf] using h
        have ih2 := ih (mat_list ++ [mat_name ++ front (split (baseName f) '_')])
          (wl ++ [(env.toDouble (front (split (baseName f) '_')), wavelengthsOf env lines)])
          (data ++ [(env.toDouble (front (split (baseName f) '_')), valuesOf env lines)]) hr
        simp [readFiles, hopen, readLines_eq, hl, ih2, upToFailure, hf, collectedName]
      · have hf : fileOk db f = false := by simp [fileOk, hopen, hl]
        simp [readFiles, hopen, readLines_eq, hl, upToFailure, hf, collectedName]
theorem tdiv_index_length (idx n : Nat) (h : idx < n) : Int.tdiv (idx : Int) (n : Int) = 0 :=
  Int.tdiv_eq_zero_of_lt (by omega) (by omega)

theorem tryMaterial_ok {D : Type} (env : Doubles D) (db : SolcoreDb) (m : String × MatDir)
    (idx : Nat) (st : MaterialDbModel D) (mat_list : List String)
    (hidx : idx < db.mat_map.length)
    (h : db.isComposition m.1 = true → dirFails db m.2 = false) :
    tryMaterial env db m.1 m.2 idx st mat_list =
      (afterMaterial env db st m, mat_list ++ namesOfMaterial db m, false) := by
  have hq := tdiv_index_length idx db.mat_map.length hidx
  by_cases hc : db.isComposition m.1 = true
  · have hd := h hc
    simp only [dirFails, Bool.or_eq_false_iff, Bool.not_eq_false_eq_eq_true,
      List.any_eq_false, List.mem_append] at hd
    obtain ⟨⟨hn, hk⟩, hfiles⟩ := hd
    have hnf : ∀ f ∈ m.2.n_flist, fileOk db f = true := fun f hf => by
      simpa using hfiles f (Or.inl hf)
    have hkf : ∀ f ∈ m.2.k_flist, fileOk db f = true := fun f hf => by
      simpa using hfiles f (Or.inr hf)
    simp [tryMaterial, hc, hn, hk, readFiles_ok env db m.1 _ _ _ _ hnf,
      readFiles_ok env db m.1 _ _ _ _ hkf, hq, afterMaterial, namesOfMaterial,
      destroy, construct, modify_length_append, recordOf, setProgress]
  · simp [tryMaterial, hc, hq, afterMaterial, namesOfMaterial]

theorem tryMaterial_fail {D : Type} (env : Doubles D) (db : SolcoreDb) (m : String × MatDir)
    (idx : Nat) (st : MaterialDbModel D) (mat_list : List String)
    (hc : db.isComposition m.1 = true) (h : dirFails db m.2 = true) :
    tryMaterial env db m.1 m.2 idx st mat_list =
      (st, mat_list ++ namesBeforeFailure db m.1 m.2, true) := by
  by_cases hdirs : (!m.2.nExists || !m.2.kExists) = true
  · simp [tryMaterial, hc, hdirs, namesBeforeFailure]
  · have hany : (m.2.n_flist ++ m.2.k_flist).any (fun f => !fileOk db f) = true := by
      simp only [dirFails, Bool.or_eq_true] at h
      rcases h with h | h
      · exact absurd (by simpa using h) hdirs
      · exact h
    by_cases hn : m.2.n_flist.any (fun f => !fileOk db f) = true
    · simp [tryMaterial, hc, hdirs, namesBeforeFailure,
        readFiles_fail env db m.1 _ _ _ _ hn, upToFailure_append_fail db _ _ hn]
    · have hnf : ∀ f ∈ m.2.n_flist, fileOk db f = true := by
        intro f hf
        by_contra hcon
        exact hn (List.any_eq_true.mpr ⟨f, hf, by simpa using hcon⟩)
      have hk : m.2.k_flist.any (fun f => !fileOk db f) = true := by
        rw [List.any_append, Bool.or_eq_true] at hany
        rcases hany with h1 | h1
        · exact absurd h1 hn
        · exact h1
      simp [tryMaterial, hc, hdirs, namesBeforeFailure,
        readFiles_ok env db m.1 _ _ _ _ hnf, readFiles_fail env db m.1 _ _ _ _ hk,
        upToFailure_append_ok db _ _ hnf]

theorem materialLoop_ok {D : Type} (env : Doubles D) (db : SolcoreDb)
    (l : List (String × MatDir)) (idx : Nat) (st : MaterialDbModel D)
    (mat_list : List String) (hidx : idx + l.length ≤ db.mat_map.length)
    (h : allIngest db l) :
    materialLoop env db l idx st mat_list =
      (l.foldl (afterMaterial env db) st, ⟨0, mat_list ++ l.flatMap (namesOfMaterial db)⟩) := by
  induction l generalizing idx st mat_list with
  | nil => simp [materialLoop]
  | cons m rest ih =>
    have hm := h m (by simp)
    have hr : allIngest db rest := fun x hx => h x (by simp [hx])
    simp only [List.length_cons] at hidx
    have ht := tryMaterial_ok env db m idx st mat_list (by omega) hm
    obtain ⟨name, dir⟩ := m
    simp only [materialLoop]
    simp only at ht
    rw [ht]
    simp only
    rw [ih (idx + 1) _ _ (by omega) hr]
    simp [List.flatMap_cons]

theorem materialLoop_fail {D : Type} (env : Doubles D) (db : SolcoreDb)
    (pre : List (String × MatDir)) (m : String × MatDir) (post : List (String × MatDir))
    (idx : Nat) (st : MaterialDbModel D) (mat_list : List String)
    (hidx : idx + pre.length ≤ db.mat_map.length)
    (hpre : allIngest db pre) (hc : db.isComposition m.1 = true)
    (hf : dirFails db m.2 = true) :
    materialLoop env db (pre ++ m :: post) idx st mat_list =
      (pre.foldl (afterMaterial env db) st,
        ⟨2, mat_list ++ pre.flatMap (namesOfMaterial db) ++ namesBeforeFailure db m.1 m.2⟩) := by
  induction pre generalizing idx st mat_list with
  | nil =>
    have ht := tryMaterial_fail env db m idx st mat_list hc hf
    obtain ⟨name, dir⟩ := m
    simp only [List.nil_append, materialLoop]
    simp only at ht
    rw [ht]
    simp
  | cons x rest ih =>
    have hx := hpre x (by simp)
    have hr : allIngest db rest := fun y hy => hpre y (by simp [hy])
    simp only [List.length_cons] at hidx
    have ht := tryMaterial_ok env db x idx st mat_list (by omega) hx
    obtain ⟨name, dir⟩ := x
    rw [List.cons_append, materialLoop]
    simp only at ht
    rw [ht]
    simp only
    rw [ih (idx + 1) _ _ (by omega) hr]
    simp [List.flatMap_cons]

/-- Either every material is ingested, or there is a first alloy material that fails. -/
theorem first_failure (db : SolcoreDb) (l : List (String × MatDir)) :
    allIngest db l ∨ ∃ pre m post, l = pre ++ m :: post ∧ allIngest db pre ∧
      db.isComposition m.1 = true ∧ dirFails db m.2 = true := by
  induction l with
  | nil => exact Or.inl (fun m hm => by simp at hm)
  | cons x rest ih =>
    by_cases hx : db.isComposition x.1 = true ∧ dirFails db x.2 = true
    · exact Or.inr ⟨[], x, rest, rfl, fun m hm => by simp at hm, hx.1, hx.2⟩
    · have hxok : db.isComposition x.1 = true → dirFails db x.2 = false := by
        intro hc
        by_contra hcon
        exact hx ⟨hc, by simpa using hcon⟩
      rcases ih with hall | ⟨pre, m, post, hl, hpre, hc, hf⟩
      · left
        intro y hy
        rcases List.mem_cons.mp hy with rfl | hy
        · exact hxok
        · exact hall y hy
      · right
        refine ⟨x :: pre, m, post, by simp [hl], ?_, hc, hf⟩
        intro y hy
        rcases List.mem_cons.mp hy with rfl | hy
        · exact hxok
        · exact hpre y hy

theorem afterMaterial_congr {D : Type} (env : Doubles D) (db db2 : SolcoreDb)
    (hc : db2.isComposition = db.isComposition) (ho : db2.openFile = db.openFile) :
    afterMaterial env db2 = afterMaterial (D := D) env db := by
  funext st m
  simp [afterMaterial, recordOf, wlEntries, dataEntries, hc, ho]
theorem fileOk_congr (db db2 : SolcoreDb) (ho : db2.openFile = db.openFile) :
    fileOk db2 = fileOk db := by
  funext f
  simp [fileOk, ho]

theorem upToFailure_congr (db db2 : SolcoreDb) (ho : db2.openFile = db.openFile)
    (files : List String) : upToFailure db2 files = upToFailure db files := by
  induction files with
  | nil => rfl
  | cons f rest ih => simp [upToFailure, fileOk_congr db db2 ho, ih]

theorem namesOfMaterial_congr (db db2 : SolcoreDb)
    (hc : db2.isComposition = db.isComposition) :
    namesOfMaterial db2 = namesOfMaterial db := by
  funext m
  simp [namesOfMaterial, hc]

theorem namesBeforeFailure_congr (db db2 : SolcoreDb) (ho : db2.openFile = db.openFile)
    (mat_name : String) (dir : MatDir) :
    namesBeforeFailure db2 mat_name dir = namesBeforeFailure db mat_name dir := by
  simp [namesBeforeFailure, upToFailure_congr db db2 ho]

theorem readSolcoreDb_of_iniOpens {D : Type} (env : Doubles D) (db : SolcoreDb)
    (st : MaterialDbModel D) (hini : db.iniOpens = true) :
    readSolcoreDb env db st = materialLoop env db db.mat_map 0 st [] := by
  simp [readSolcoreDb, hini]

theorem readSolcoreDb_of_not_iniOpens {D : Type} (env : Doubles D) (db : SolcoreDb)
    (st : MaterialDbModel D) (hini : db.iniOpens = false) :
    readSolcoreDb env db st = (st, ⟨1, []⟩) := by
  simp [readSolcoreDb, hini]

/-! ### C1: a failed `readSolcoreDb` and the store -/

/-- C3: when the ini file opens and the first material whose ingestion fails is an
alloy material `m` (its `n` or `k` folder is missing, one of its files cannot be
opened, or one of its lines does not split into two parts), `readSolcoreDb` returns
status 2 with `matlist` equal to the names collected up to the failure, in order, and
the whole outcome is that of the call without the materials after `m`. -/
theorem readSolcoreDb_stops_at_failure {D : Type} (env : Doubles D) (db : SolcoreDb)
    (st : MaterialDbModel D) (pre : List (String × MatDir)) (m : String × MatDir)
    (post : List (String × MatDir)) (hini : db.iniOpens = true)
    (hmap : db.mat_map = pre ++ m :: post) (hpre : allIngest db pre)
    (hc : db.isComposition m.1 = true) (hf : dirFails db m.2 = true) :
    (readSolcoreDb env db st).2 =
        ⟨2, pre.flatMap (namesOfMaterial db) ++ namesBeforeFailure db m.1 m.2⟩ ∧
      readSolcoreDb env db st = readSolcoreDb env { db with mat_map := pre ++ [m] } st := by
  have hlen : 0 + pre.length ≤ db.mat_map.length := by simp [hmap]
  have hrun : readSolcoreDb env db st =
      (pre.foldl (afterMaterial env db) st,
        ⟨2, [] ++ pre.flatMap (namesOfMaterial db) ++ namesBeforeFailure db m.1 m.2⟩) := by
    rw [readSolcoreDb_of_iniOpens env db st hini, hmap]
    exact materialLoop_fail env db pre m post 0 st [] hlen hpre hc hf
  have hpre2 : allIngest { db with mat_map := pre ++ [m] } pre := hpre
  have hrun2 : readSolcoreDb env { db with mat_map := pre ++ [m] } st =
      (pre.foldl (afterMaterial env db) st,
        ⟨2, [] ++ pre.flatMap (namesOfMaterial db) ++ namesBeforeFailure db m.1 m.2⟩) := by
    rw [readSolcoreDb_of_iniOpens env { db with mat_map := pre ++ [m] } st hini]
    rw [materialLoop_fail env { db with mat_map := pre ++ [m] } pre m [] 0 st []
      (by simp) hpre2 hc hf]
    rw [afterMaterial_congr env db { db with mat_map := pre ++ [m] } rfl rfl,
      namesOfMaterial_congr db { db with mat_map := pre ++ [m] } rfl,
      namesBeforeFailure_congr db { db with mat_map := pre ++ [m] } rfl]
  refine ⟨?_, ?_⟩
  · rw [hrun]
    simp
  · rw [hrun, hrun2]

/-- C3 at a concrete import: the second of three alloy materials has a line with
three parts in its second `n` file. -/
theorem readSolcoreDb_stops_at_failure_witness :
    (dbThreeTokens.iniOpens = true ∧
      dbThreeTokens.mat_map =
        [("AlGaAs", ⟨true, true, ["0_AlGaAs.txt"], ["0_AlGaAs.txt"]⟩)] ++
          ("InGaAs", ⟨true, true, ["0_InGaAs.txt", "1_InGaAs.txt"], ["0_InGaAs.txt"]⟩) ::
            [("SiGe", ⟨true, true, ["0_SiGe.txt"], ["0_SiGe.txt"]⟩)]) ∧
    (readSolcoreDb sampleDoubles dbThreeTokens emptyModel).2 =
      ⟨2, ["AlGaAs0", "AlGaAs0", "InGaAs0", "InGaAs1"]⟩ :=
  ⟨⟨rfl, rfl⟩,
    (readSolcoreDb_stops_at_failure sampleDoubles dbThreeTokens emptyModel
      [("AlGaAs", ⟨true, true, ["0_AlGaAs.txt"], ["0_AlGaAs.txt"]⟩)]
      ("InGaAs", ⟨true, true, ["0_InGaAs.txt", "1_InGaAs.txt"], ["0_InGaAs.txt"]⟩)
      [("SiGe", ⟨true, true, ["0_SiGe.txt"], ["0_SiGe.txt"]⟩)]
      rfl rfl (by decide) rfl (by decide)).1.trans (by decide)⟩
/-! ### C4: the lines that are accepted -/

theorem splitWsGo_ne_nil (p : Bool) (l : List Char) : splitWsGo p l ≠ [] := by
  induction l generalizing p with
  | nil => simp [splitWsGo]
  | cons c cs ih =>
    by_cases hc : isSpace c = true
    · cases p
      · simp [splitWsGo, hc]
      · simpa [splitWsGo, hc] using ih true
    · have hc2 : isSpace c = false := by simpa using hc
      cases hs : splitWsGo false cs with
      | nil => simp [splitWsGo, hc2, hs]
      | cons t ts => simp [splitWsGo, hc2, hs]

theorem splitWsGo_no_space (p : Bool) (a : List Char) (h : ∀ c ∈ a, isSpace c = false) :
    splitWsGo p a = [a] := by
  induction a generalizing p with
  | nil => simp [splitWsGo]
  | cons c cs ih =>
    have hc : isSpace c = false := h c (by simp)
    have hr : ∀ x ∈ cs, isSpace x = false := fun x hx => h x (by simp [hx])
    simp [splitWsGo, hc, ih false hr]

theorem splitWsGo_first_space (a : List Char) (c : Char) (r : List Char)
    (h : ∀ x ∈ a, isSpace x = false) (hc : isSpace c = true) :
    splitWsGo false (a ++ c :: r) = a :: splitWsGo true r := by
  induction a with
  | nil => simp [splitWsGo, hc]
  | cons x xs ih =>
    have hx : isSpace x = false := h x (by simp)
    have hr : ∀ y ∈ xs, isSpace y = false := fun y hy => h y (by simp [hy])
    simp [splitWsGo, hx, ih hr]

theorem splitWsGo_skip_space (w r : List Char) (h : ∀ c ∈ w, isSpace c = true) :
    splitWsGo true (w ++ r) = splitWsGo true r := by
  induction w with
  | nil => rfl
  | cons x xs ih =>
    have hx : isSpace x = true := h x (by simp)
    have hr : ∀ y ∈ xs, isSpace y = true := fun y hy => h y (by simp [hy])
    simp [splitWsGo, hx, ih hr]

theorem splitWsGo_flag (b : List Char)
    (h : b = [] ∨ ∃ x r, b = x :: r ∧ isSpace x = false) :
    splitWsGo true b = splitWsGo false b := by
  rcases h with rfl | ⟨x, r, rfl, hx⟩
  · rfl
  · simp [splitWsGo, hx]

theorem first_space (l : List Char) :
    (∀ c ∈ l, isSpace c = false) ∨
      ∃ a c r, l = a ++ c :: r ∧ (∀ x ∈ a, isSpace x = false) ∧ isSpace c = true := by
  induction l with
  | nil => exact Or.inl (fun c hc => by simp at hc)
  | cons x xs ih =>
    by_cases hx : isSpace x = true
    · exact Or.inr ⟨[], x, xs, rfl, fun y hy => by simp at hy, hx⟩
    · have hx2 : isSpace x = false := by simpa using hx
      rcases ih with hall | ⟨a, c, r, hl, ha, hc⟩
      · left
        intro y hy
        rcases List.mem_cons.mp hy with rfl | hy
        · exact hx2
        · exact hall y hy
      · right
        refine ⟨x :: a, c, r, by simp [hl], ?_, hc⟩
        intro y hy
        rcases List.mem_cons.mp hy with rfl | hy
        · exact hx2
        · exact ha y hy

theorem space_run (r : List Char) :
    ∃ w b, r = w ++ b ∧ (∀ c ∈ w, isSpace c = true) ∧
      (b = [] ∨ ∃ x t, b = x :: t ∧ isSpace x = false) := by
  induction r with
  | nil => exact ⟨[], [], rfl, fun c hc => by simp at hc, Or.inl rfl⟩
  | cons x xs ih =>
    by_cases hx : isSpace x = true
    · obtain ⟨w, b, hr, hw, hb⟩ := ih
      refine ⟨x :: w, b, by simp [hr], ?_, hb⟩
      intro y hy
      rcases List.mem_cons.mp hy with rfl | hy
      · exact hx
      · exact hw y hy
    · exact ⟨[], x :: xs, rfl, fun c hc => by simp at hc,
        Or.inr ⟨x, xs, rfl, by simpa using hx⟩⟩

theorem splitWsGo_length_one (l : List Char) (h : (splitWsGo false l).length = 1) :
    ∀ c ∈ l, isSpace c = false := by
  rcases first_space l with hall | ⟨a, c, r, hl, ha, hc⟩
  · exact hall
  · exfalso
    rw [hl, splitWsGo_first_space a c r ha hc] at h
    have hne := splitWsGo_ne_nil true r
    cases hs : splitWsGo true r with
    | nil => exact hne hs
    | cons t ts => simp [hs] at h

theorem splitWsGo_of_oneSeparator (a w b : List Char) (hw : w ≠ [])
    (hws : ∀ c ∈ w, isSpace c = true) (ha : ∀ c ∈ a, isSpace c = false)
    (hb : ∀ c ∈ b, isSpace c = false) : splitWsGo false (a ++ w ++ b) = [a, b] := by
  cases w with
  | nil => exact absurd rfl hw
  | cons c w2 =>
    have hc : isSpace c = true := hws c (by simp)
    have hw2 : ∀ y ∈ w2, isSpace y = true := fun y hy => hws y (by simp [hy])
    have e : a ++ c :: w2 ++ b = a ++ c :: (w2 ++ b) := by simp
    rw [e, splitWsGo_first_space a c (w2 ++ b) ha hc, splitWsGo_skip_space w2 b hw2,
      splitWsGo_no_space true b hb]

theorem oneSeparator_of_length_two (l : List Char) (h : (splitWsGo false l).length = 2) :
    ∃ a w b, w ≠ [] ∧ (∀ c ∈ w, isSpace c = true) ∧ (∀ c ∈ a, isSpace c = false) ∧
      (∀ c ∈ b, isSpace c = false) ∧ l = a ++ w ++ b := by
  rcases first_space l with hall | ⟨a, c, r, hl, ha, hc⟩
  · rw [splitWsGo_no_space false l hall] at h
    simp at h
  · obtain ⟨w, b, hr, hw, hb⟩ := space_run r
    rw [hl, splitWsGo_first_space a c r ha hc, hr, splitWsGo_skip_space w b hw,
      splitWsGo_flag b hb] at h
    have h1 : (splitWsGo false b).length = 1 := by simpa using h
    refine ⟨a, c :: w, b, by simp, ?_, ha, splitWsGo_length_one b h1, by simp [hl, hr]⟩
    intro y hy
    rcases List.mem_cons.mp hy with rfl | hy
    · exact hc
    · exact hw y hy

/-- C4, as stated, fails in both directions: a file with an empty line between two
well-formed lines aborts the import with status 2, and a file whose line `abc 3.5`
starts with a token that is no numeral is imported with status 0, the token read as
zero. -/
theorem readSolcoreDb_empty_line_rejected_non_numeric_accepted :
    (readSolcoreDb sampleDoubles dbEmptyLine emptyModel).2.status = 2 ∧
    sampleDoubles.parse "abc" = none ∧
    (readSolcoreDb sampleDoubles dbNonNumeric emptyModel).2.status = 0 ∧
    constructedAt (readSolcoreDb sampleDoubles dbNonNumeric emptyModel).1 0 =
      some (.comp ⟨"AlGaAs", [(0, [0])], [(0, [mkRat 7 2])], [], []⟩) := by
  decide

/-- C4, amended: a line is accepted if and only if it consists of two parts free of
white space (either may be empty) separated by one non-empty run of white space; the
sample is then the pair of the `toDouble` values of the two parts, and reading goes on
with the next line. Every other line, the empty line included, makes the file fail. -/
theorem readLines_accepts_iff_one_separator {D : Type} (env : Doubles D) (line : String)
    (rest : List String) (wl data : List D) :
    (∃ a b, oneSeparator line a b ∧
        readLines env (line :: rest) wl data =
          readLines env rest (wl ++ [env.toDouble (String.mk a)])
            (data ++ [env.toDouble (String.mk b)])) ∨
      ((¬ ∃ a b, oneSeparator line a b) ∧ readLines env (line :: rest) wl data = none) := by
  by_cases h : (splitWs line).length = 2
  · left
    have h2 : (splitWsGo false line.data).length = 2 := by simpa [splitWs] using h
    obtain ⟨a, w, b, hw, hws, ha, hb, hl⟩ := oneSeparator_of_length_two line.data h2
    refine ⟨a, b, ⟨w, hw, hws, ha, hb, hl⟩, ?_⟩
    have hsplit : splitWs line = [String.mk a, String.mk b] := by
      unfold splitWs
      rw [hl, splitWsGo_of_oneSeparator a w b hw hws ha hb]
      rfl
    simp [readLines, hsplit, front, back]
  · right
    refine ⟨?_, by simp [readLines, h]⟩
    rintro ⟨a, b, w, hw, hws, ha, hb, hl⟩
    apply h
    unfold splitWs
    rw [hl, splitWsGo_of_oneSeparator a w b hw hws ha hb]
    rfl
/-! ### C5: the order of the wavelengths -/

/-- C5, as stated, fails: a data file that repeats the wavelength 300 and then goes
down to 290 is imported with status 0, and the curve of the record holds the three
wavelengths as they stand in the file. -/
theorem readSolcoreDb_unordered_wavelengths_accepted :
    (readSolcoreDb sampleDoubles dbUnordered emptyModel).2.status = 0 ∧
    constructedAt (readSolcoreDb sampleDoubles dbUnordered emptyModel).1 0 =
      some (.comp ⟨"AlGaAs", [(0, [300, 300, 290])],
        [(0, [mkRat 7 2, mkRat 18 5, mkRat 37 10])], [], []⟩) ∧
    (300 : ℚ) ≤ 300 ∧ (290 : ℚ) ≤ 300 := by
  decide

/-- C5, amended: the wavelengths are not compared. A data file each of whose lines
splits into two parts is read whatever the order of its wavelengths, and the curve
holds one sample per line, in file order, repeated wavelengths included. -/
theorem readLines_keeps_file_order {D : Type} (env : Doubles D) (lines : List String)
    (h : ∀ line ∈ lines, (splitWs line).length = 2) :
    readLines env lines [] [] = some (wavelengthsOf env lines, valuesOf env lines) := by
  have hall : lines.all lineOk = true := by
    simp only [List.all_eq_true, lineOk, decide_eq_true_eq]
    exact h
  simp [readLines_eq, hall]

/-- C5, amended, at a file that repeats a wavelength. -/
theorem readLines_keeps_file_order_witness :
    (∀ line ∈ ["300 3.5", "300 3.6", "290 3.7"], (splitWs line).length = 2) ∧
    readLines sampleDoubles ["300 3.5", "300 3.6", "290 3.7"] [] [] =
      some (wavelengthsOf sampleDoubles ["300 3.5", "300 3.6", "290 3.7"],
        valuesOf sampleDoubles ["300 3.5", "300 3.6", "290 3.7"]) :=
  ⟨by decide, readLines_keeps_file_order sampleDoubles ["300 3.5", "300 3.6", "290 3.7"]
    (by decide)⟩

/-! ### C6: the fractions of `n` and of `k` -/

theorem afterMaterial_objects {D : Type} (env : Doubles D) (db : SolcoreDb)
    (st : MaterialDbModel D) (m : String × MatDir) :
    (afterMaterial env db st m).objects =
      st.objects ++ (if db.isComposition m.1 then [(Object.comp (recordOf env db m), false)]
        else []) := by
  unfold afterMaterial setProgress
  split <;> split <;> simp

theorem foldl_afterMaterial_objects {D : Type} (env : Doubles D) (db : SolcoreDb)
    (l : List (String × MatDir)) (st : MaterialDbModel D) :
    (l.foldl (afterMaterial env db) st).objects =
      st.objects ++ (l.filter (fun m => db.isComposition m.1)).map
        (fun m => (Object.comp (recordOf env db m), false)) := by
  induction l generalizing st with
  | nil => simp
  | cons m rest ih =>
    rw [List.foldl_cons, ih, afterMaterial_objects]
    by_cases hc : db.isComposition m.1 = true
    · simp [hc, List.filter_cons]
    · simp [hc, List.filter_cons]

/-- The source compares no fractions. At listings that hold data files only (without
the entries `.` and `..` that a directory on disk lists), with the fraction 0 present
under `n` only and the fraction 1 under `k` only, the model of `readSolcoreDb` returns
status 0 and has built a record whose `n` entries carry the fraction 0 and whose `k`
entries carry the fraction 1. -/
theorem readSolcoreDb_fraction_mismatch_accepted :
    (readSolcoreDb sampleDoubles dbMismatch emptyModel).2.status = 0 ∧
    constructedAt (readSolcoreDb sampleDoubles dbMismatch emptyModel).1 0 =
      some (.comp ⟨"AlGaAs", [(0, [300])], [(0, [mkRat 7 2])],
        [(1, [300])], [(1, [mkRat 1 10])]⟩) := by
  decide

/-- The records of a call in which no material fails (which requires that every entry
of every listing can be opened and read as a data file): `readSolcoreDb` returns status
0 and has constructed, for each alloy material in map order, the record whose `n`
entries are the files of `n` in listing order and whose `k` entries are the files of
`k` in listing order, each entry with the fraction read from its own file name. -/
theorem readSolcoreDb_builds_sides_independently {D : Type} (env : Doubles D)
    (db : SolcoreDb) (st : MaterialDbModel D) (hini : db.iniOpens = true)
    (hall : allIngest db db.mat_map) :
    (readSolcoreDb env db st).2.status = 0 ∧
    (readSolcoreDb env db st).1.objects =
      st.objects ++ (db.mat_map.filter (fun m => db.isComposition m.1)).map
        (fun m => (Object.comp (recordOf env db m), false)) := by
  rw [readSolcoreDb_of_iniOpens env db st hini,
    materialLoop_ok env db db.mat_map 0 st [] (by simp) hall]
  exact ⟨rfl, foldl_afterMaterial_objects env db db.mat_map st⟩

/-- The records of a call in which no material fails, at listings that hold data
files only, with the fraction 0 under `n` and 1 under `k`. -/
theorem readSolcoreDb_builds_sides_independently_witness :
    (dbMismatch.iniOpens = true ∧ allIngest dbMismatch dbMismatch.mat_map) ∧
    (readSolcoreDb sampleDoubles dbMismatch emptyModel).2.status = 0 ∧
    (readSolcoreDb sampleDoubles dbMismatch emptyModel).1.objects =
      emptyModel.objects ++ (dbMismatch.mat_map.filter
        (fun m => dbMismatch.isComposition m.1)).map
          (fun m => (Object.comp (recordOf sampleDoubles dbMismatch m), false)) :=
  ⟨⟨rfl, by decide⟩,
    readSolcoreDb_builds_sides_independently sampleDoubles dbMismatch emptyModel rfl
      (by decide)⟩

/-- C8 at the file name `0.5_AlGaAs.txt`: `baseName` ends at the first dot, so the
fraction string is `0`; the name collected is `AlGaAs0` and the fraction recorded for
the curves is 0, whereas the numeral before the first underscore has the value 1/2. -/
theorem readSolcoreDb_fraction_cut_at_dot :
    baseName "0.5_AlGaAs.txt" = "0" ∧
    front (split (baseName "0.5_AlGaAs.txt") '_') = "0" ∧
    sampleDoubles.toDouble "0.5" = mkRat 1 2 ∧
    (readSolcoreDb sampleDoubles dbHalf emptyModel).2 = ⟨0, ["AlGaAs0", "AlGaAs0"]⟩ ∧
    constructedAt (readSolcoreDb sampleDoubles dbHalf emptyModel).1 0 =
      some (.comp ⟨"AlGaAs", [(0, [300])], [(0, [mkRat 7 2])],
        [(0, [300])], [(0, [mkRat 7 2])]⟩) := by
  decide
/-! ### The loops of `readDfDb` -/

theorem set_length_append {α : Type} (pre : List α) (a v : α) (rest : List α) :
    (pre ++ a :: rest).set pre.length v = pre ++ v :: rest := by
  induction pre with
  | nil => rfl
  | cons x xs ih => simp [ih]

theorem readNK_rows {D : Type} (env : Doubles D) (wsheet : Worksheet D) (cc : Int)
    (d : Nat) : ∀ (rc : Int) (pn pk : List D), 2 ≤ rc →
      (wsheet.rowCount + 1 - rc).toNat = d → rc ≤ wsheet.rowCount + 1 →
      pn.length = (rc - 2).toNat → pk.length = (rc - 2).toNat →
      readNK env wsheet wsheet.rowCount cc rc
          (pn ++ List.replicate d env.zero) (pk ++ List.replicate d env.zero) =
        (pn ++ (List.range' (rc - 2).toNat d).map
            (fun (i : Nat) => cellDouble env (wsheet.cellAt ((i : Int) + 2) cc)),
          pk ++ (List.range' (rc - 2).toNat d).map
            (fun (i : Nat) => cellDouble env (wsheet.cellAt ((i : Int) + 2) (cc + 1)))) := by
  induction d with
  | zero =>
    intro rc pn pk h2 hd hle hpn hpk
    have hrc : ¬ rc ≤ wsheet.rowCount := by omega
    rw [readNK]
    simp [hrc]
  | succ d ih =>
    intro rc pn pk h2 hd hle hpn hpk
    have hrc : rc ≤ wsheet.rowCount := by omega
    have hrow : (((rc - 2).toNat : Nat) : Int) + 2 = rc := by omega
    have hnext : (rc + 1 - 2).toNat = (rc - 2).toNat + 1 := by omega
    have hsetn : ∀ v : D, (pn ++ List.replicate (d + 1) env.zero).set (rc - 2).toNat v =
        (pn ++ [v]) ++ List.replicate d env.zero := by
      intro v
      rw [← hpn, List.replicate_succ, set_length_append]
      simp
    have hsetk : ∀ v : D, (pk ++ List.replicate (d + 1) env.zero).set (rc - 2).toNat v =
        (pk ++ [v]) ++ List.replicate d env.zero := by
      intro v
      rw [← hpk, List.replicate_succ, set_length_append]
      simp
    have hkeepn : pn ++ List.replicate (d + 1) env.zero =
        (pn ++ [env.zero]) ++ List.replicate d env.zero := by
      simp [List.replicate_succ]
    have hkeepk : pk ++ List.replicate (d + 1) env.zero =
        (pk ++ [env.zero]) ++ List.replicate d env.zero := by
      simp [List.replicate_succ]
    rw [readNK]
    simp only [hrc, if_true]
    cases hn : wsheet.cellAt rc cc with
    | none =>
      cases hk : wsheet.cellAt rc (cc + 1) with
      | none =>
        simp only []
        rw [hkeepn, hkeepk, ih (rc + 1) _ _ (by omega) (by omega) (by omega)
          (by simp [hpn, hnext]) (by simp [hpk, hnext])]
        rw [hnext, List.range'_succ, List.map_cons, List.map_cons]
        simp only [hrow, hn, hk, cellDouble, List.append_assoc, List.singleton_append]
      | some ck =>
        simp only []
        rw [hkeepn, hsetk, ih (rc + 1) _ _ (by omega) (by omega) (by omega)
          (by simp [hpn, hnext]) (by simp [hpk, hnext])]
        rw [hnext, List.range'_succ, List.map_cons, List.map_cons]
        simp only [hrow, hn, hk, cellDouble, List.append_assoc, List.singleton_append]
    | some cn =>
      cases hk : wsheet.cellAt rc (cc + 1) with
      | none =>
        simp only []
        rw [hsetn, hkeepk, ih (rc + 1) _ _ (by omega) (by omega) (by omega)
          (by simp [hpn, hnext]) (by simp [hpk, hnext])]
        rw [hnext, List.range'_succ, List.map_cons, List.map_cons]
        simp only [hrow, hn, hk, cellDouble, List.append_assoc, List.singleton_append]
      | some ck =>
        simp only []
        rw [hsetn, hsetk, ih (rc + 1) _ _ (by omega) (by omega) (by omega)
          (by simp [hpn, hnext]) (by simp [hpk, hnext])]
        rw [hnext, List.range'_succ, List.map_cons, List.map_cons]
        simp only [hrow, hn, hk, cellDouble, List.append_assoc, List.singleton_append]

theorem readNK_eq {D : Type} (env : Doubles D) (wsheet : Worksheet D) (cc : Int)
    (hrows : 1 ≤ wsheet.rowCount) :
    readNK env wsheet wsheet.rowCount cc 2
        (List.replicate (wsheet.rowCount - 1).toNat env.zero)
        (List.replicate (wsheet.rowCount - 1).toNat env.zero) =
      (columnValues env wsheet cc, columnValues env wsheet (cc + 1)) := by
  have h := readNK_rows env wsheet cc (wsheet.rowCount - 1).toNat 2 [] []
    (by omega) (by omega) (by omega) (by simp) (by simp)
  simpa [columnValues, List.range_eq_range'] using h

theorem readWls_rows {D : Type} (env : Doubles D) (wsheet : Worksheet D)
    (d : Nat) : ∀ (rc : Int) (pw : List D), 2 ≤ rc →
      (wsheet.rowCount + 1 - rc).toNat = d → rc ≤ wsheet.rowCount + 1 →
      pw.length = (rc - 2).toNat →
      readWls env wsheet wsheet.rowCount rc (pw ++ List.replicate d env.zero) =
        pw ++ (List.range' (rc - 2).toNat d).map
            (fun (i : Nat) => cellWavelength env (wsheet.cellAt ((i : Int) + 2) 1)) := by
  induction d with
  | zero =>
    intro rc pw h2 hd hle hpw
    have hrc : ¬ rc ≤ wsheet.rowCount := by omega
    rw [readWls]
    simp [hrc]
  | succ d ih =>
    intro rc pw h2 hd hle hpw
    have hrc : rc ≤ wsheet.rowCount := by omega
    have hrow : (((rc - 2).toNat : Nat) : Int) + 2 = rc := by omega
    have hnext : (rc + 1 - 2).toNat = (rc - 2).toNat + 1 := by omega
    have hset : ∀ v : D, (pw ++ List.replicate (d + 1) env.zero).set (rc - 2).toNat v =
        (pw ++ [v]) ++ List.replicate d env.zero := by
      intro v
      rw [← hpw, List.replicate_succ, set_length_append]
      simp
    have hkeep : pw ++ List.replicate (d + 1) env.zero =
        (pw ++ [env.zero]) ++ List.replicate d env.zero := by
      simp [List.replicate_succ]
    rw [readWls]
    simp only [hrc, if_true]
    cases hw : wsheet.cellAt rc 1 with
    | none =>
      simp only []
      rw [hkeep, ih (rc + 1) _ (by omega) (by omega) (by omega) (by simp [hpw, hnext])]
      rw [hnext, List.range'_succ, List.map_cons]
      simp only [hrow, hw, cellWavelength, List.append_assoc, List.singleton_append]
    | some cw =>
      simp only []
      rw [hset, ih (rc + 1) _ (by omega) (by omega) (by omega) (by simp [hpw, hnext])]
      rw [hnext, List.range'_succ, List.map_cons]
      simp only [hrow, hw, cellWavelength, List.append_assoc, List.singleton_append]

theorem readWls_eq {D : Type} (env : Doubles D) (wsheet : Worksheet D)
    (hrows : 1 ≤ wsheet.rowCount) :
    readWls env wsheet wsheet.rowCount 2
        (List.replicate (wsheet.rowCount - 1).toNat env.zero) =
      wavelengthColumn env wsheet := by
  have h := readWls_rows env wsheet (wsheet.rowCount - 1).toNat 2 []
    (by omega) (by omega) (by omega) (by simp)
  simpa [wavelengthColumn, List.range_eq_range'] using h
theorem columnValues_length {D : Type} (env : Doubles D) (wsheet : Worksheet D) (col : Int) :
    (columnValues env wsheet col).length = (wsheet.rowCount - 1).toNat := by
  simp [columnValues]

theorem wavelengthColumn_length {D : Type} (env : Doubles D) (wsheet : Worksheet D) :
    (wavelengthColumn env wsheet).length = (wsheet.rowCount - 1).toNat := by
  simp [wavelengthColumn]

theorem pairColumn_lt (maxCol : Int) (j : Nat) (h : j < pairCount maxCol) :
    pairColumn j < maxCol := by
  unfold pairColumn pairCount at *
  omega

theorem pairColumn_ge (maxCol : Int) (j : Nat) (h : pairCount maxCol ≤ j) :
    ¬ pairColumn j < maxCol := by
  unfold pairColumn pairCount at *
  omega

theorem pairColumn_succ (j : Nat) : pairColumn j + 2 = pairColumn (j + 1) := by
  unfold pairColumn
  push_cast
  ring

theorem splitCharGo_head (sep : Char) (l : List Char) :
    (splitCharGo sep l).headD [] = l.takeWhile (fun c => c != sep) := by
  induction l with
  | nil => rfl
  | cons c cs ih =>
    by_cases hc : c = sep
    · simp [splitCharGo, hc]
    · cases hs : splitCharGo sep cs with
      | nil =>
        rw [hs] at ih
        simp only [List.headD_nil] at ih
        simp [splitCharGo, hc, hs, ← ih]
      | cons t ts =>
        rw [hs] at ih
        simp only [List.headD_cons] at ih
        simp [splitCharGo, hc, hs, ih]

/-- The expression `split('_').front()` is the text cut before its first underscore. -/
theorem front_split_underscore (s : String) : front (split s '_') = cutAtUnderscore s := by
  have h := splitCharGo_head '_' s.data
  unfold front split cutAtUnderscore
  cases hs : splitCharGo '_' s.data with
  | nil =>
    rw [hs] at h
    simp only [List.headD_nil] at h
    simp [← h]
  | cons t ts =>
    rw [hs] at h
    simp only [List.headD_cons] at h
    simp [← h]

/-- One pass through the body of the column loop. -/
theorem columnLoop_step {D : Type} (env : Doubles D) (wsheet : Worksheet D) (j : Nat)
    (st : MaterialDbModel D) (mat_list : List String) (hrows : 1 ≤ wsheet.rowCount)
    (hj : j < pairCount wsheet.columnCount)
    (hh : (wsheet.cellAt 1 (pairColumn j)).isSome = true) :
    columnLoop env wsheet wsheet.rowCount wsheet.columnCount (wavelengthColumn env wsheet)
        (pairColumn j) st mat_list =
      columnLoop env wsheet wsheet.rowCount wsheet.columnCount (wavelengthColumn env wsheet)
        (pairColumn (j + 1)) (afterPair env wsheet st j)
        (mat_list ++ [headerName env wsheet (pairColumn j)]) := by
  have hlt := pairColumn_lt wsheet.columnCount j hj
  obtain ⟨header, hheader⟩ := Option.isSome_iff_exists.mp hh
  rw [columnLoop]
  simp only [hlt, if_true, hheader, readNK_eq env wsheet (pairColumn j) hrows,
    columnValues_length, pairColumn_succ]
  have htake : (wavelengthColumn env wsheet).take (wsheet.rowCount - 1).toNat =
      wavelengthColumn env wsheet := by
    rw [← wavelengthColumn_length env wsheet, List.take_length]
  rw [htake]
  congr 1
  · simp only [afterPair, headerName, hheader, pairRecord, construct, destroy, setProgress,
      front_split_underscore]
    split <;> simp [modify_length_append]
  · simp [headerName, hheader, front_split_underscore]

theorem columnLoop_pairs {D : Type} (env : Doubles D) (wsheet : Worksheet D)
    (hrows : 1 ≤ wsheet.rowCount)
    (hheaders : ∀ j : Nat, j < pairCount wsheet.columnCount →
      (wsheet.cellAt 1 (pairColumn j)).isSome = true)
    (d : Nat) : ∀ (j0 : Nat) (st : MaterialDbModel D) (mat_list : List String),
      j0 + d = pairCount wsheet.columnCount →
      columnLoop env wsheet wsheet.rowCount wsheet.columnCount (wavelengthColumn env wsheet)
          (pairColumn j0) st mat_list =
        .ok ((List.range' j0 d).foldl (afterPair env wsheet) st,
          mat_list ++ (List.range' j0 d).map
            (fun (j : Nat) => headerName env wsheet (pairColumn j))) := by
  induction d with
  | zero =>
    intro j0 st mat_list hj
    have hge := pairColumn_ge wsheet.columnCount j0 (by omega)
    rw [columnLoop]
    simp [hge]
  | succ d ih =>
    intro j0 st mat_list hj
    rw [columnLoop_step env wsheet j0 st mat_list hrows (by omega) (hheaders j0 (by omega)),
      ih (j0 + 1) _ _ (by omega)]
    simp [List.range'_succ]

/-- The run of `readDfDb` on a workbook that can be ingested. -/
theorem readDfDb_run {D : Type} (env : Doubles D) (doc : Document D) (wsheet : Worksheet D)
    (st : MaterialDbModel D) (h : Ingestible doc wsheet) :
    readDfDb env doc st =
      .ok ((List.range (pairCount wsheet.columnCount)).foldl (afterPair env wsheet)
          (setProgress st (Int.tdiv 1 wsheet.columnCount)),
        ⟨0, (List.range (pairCount wsheet.columnCount)).map
          (fun (j : Nat) => headerName env wsheet (pairColumn j))⟩) := by
  obtain ⟨data, hdata⟩ := Option.isSome_iff_exists.mp h.hasData
  have hrows : ¬ wsheet.rowCount - 1 < 0 := by have := h.rows; omega
  have hcols : ¬ wsheet.columnCount = 0 := by have := h.cols; omega
  have hloop := columnLoop_pairs env wsheet h.rows h.headers (pairCount wsheet.columnCount) 0
    (setProgress st (Int.tdiv 1 wsheet.columnCount)) [] (by simp)
  have h2 : pairColumn 0 = 2 := by simp [pairColumn]
  rw [h2] at hloop
  unfold readDfDb
  simp only [h.loads, hdata, h.active, hrows, hcols, readWls_eq env wsheet h.rows, hloop,
    List.range_eq_range']
  simp
theorem afterPair_objects {D : Type} (env : Doubles D) (wsheet : Worksheet D)
    (st : MaterialDbModel D) (j : Nat) :
    (afterPair env wsheet st j).objects =
      st.objects ++ [(Object.optic (pairRecord env wsheet j), false)] := by
  unfold afterPair setProgress
  split <;> rfl

theorem afterPair_m_list {D : Type} (env : Doubles D) (wsheet : Worksheet D)
    (st : MaterialDbModel D) (j : Nat) :
    (afterPair env wsheet st j).m_list =
      qmapInsert (headerName env wsheet (pairColumn j)) st.objects.length st.m_list := by
  unfold afterPair setProgress
  split <;> rfl

theorem foldl_afterPair_objects {D : Type} (env : Doubles D) (wsheet : Worksheet D)
    (n : Nat) (st : MaterialDbModel D) :
    ((List.range n).foldl (afterPair env wsheet) st).objects =
      st.objects ++ (List.range n).map
        (fun (j : Nat) => (Object.optic (pairRecord env wsheet j), false)) := by
  induction n with
  | zero => simp
  | succ n ih =>
    rw [List.range_succ, List.foldl_append, List.foldl_cons, List.foldl_nil,
      afterPair_objects, ih]
    simp

/-- After the column loop, the entry of an identifier is the address of the record
of the last column pair that derives it. -/
theorem foldl_afterPair_find {D : Type} (env : Doubles D) (wsheet : Worksheet D)
    (n : Nat) (st : MaterialDbModel D) (j : Nat) (hj : j < n)
    (hlast : ∀ i : Nat, j < i → i < n →
      headerName env wsheet (pairColumn i) ≠ headerName env wsheet (pairColumn j)) :
    qmapFind (headerName env wsheet (pairColumn j))
        ((List.range n).foldl (afterPair env wsheet) st).m_list =
      some (st.objects.length + j) := by
  induction n with
  | zero => omega
  | succ n ih =>
    rw [List.range_succ, List.foldl_append, List.foldl_cons, List.foldl_nil,
      afterPair_m_list, foldl_afterPair_objects]
    by_cases hjn : j = n
    · subst hjn
      rw [qmapFind_insert_self]
      simp
    · have hne := hlast n (by omega) (by omega)
      rw [qmapFind_insert_other _ _ _ _ hne]
      exact ih (by omega) (fun i h1 h2 => hlast i h1 (by omega))

theorem setProgress_objects {D : Type} (st : MaterialDbModel D) (q : Int) :
    (setProgress st q).objects = st.objects := by
  unfold setProgress
  split <;> rfl

/-! ### C9: one identifier per column pair -/

/-- C9: for a workbook that can be ingested (loadable, with a `data` sheet, the sheet
read having its header row, `C ≥ 1` columns and the header cells of its column pairs),
`readDfDb` returns status 0 with exactly `floor((C - 1) / 2)` identifiers, the `j`-th of
which (counted from 1) is the header of column `2 * j` cut before its first underscore;
as many records are constructed, so a trailing column without partner yields none. -/
theorem readDfDb_one_identifier_per_pair {D : Type} (env : Doubles D) (doc : Document D)
    (wsheet : Worksheet D) (st : MaterialDbModel D) (h : Ingestible doc wsheet) :
    ∃ st2 res, readDfDb env doc st = .ok (st2, res) ∧ res.status = 0 ∧
      res.matlist.length = ((wsheet.columnCount - 1) / 2).toNat ∧
      (∀ j : Nat, 1 ≤ j → j ≤ ((wsheet.columnCount - 1) / 2).toNat →
        res.matlist[j - 1]? = some (headerName env wsheet (2 * (j : Int)))) ∧
      st2.objects.length = st.objects.length + ((wsheet.columnCount - 1) / 2).toNat := by
  refine ⟨_, _, readDfDb_run env doc wsheet st h, rfl, ?_, ?_, ?_⟩
  · simp [pairCount]
  · intro j h1 h2
    have hlt : j - 1 < pairCount wsheet.columnCount := by unfold pairCount; omega
    have hcol : pairColumn (j - 1) = 2 * (j : Int) := by unfold pairColumn; omega
    simp only [List.getElem?_map, List.getElem?_range hlt, Option.map_some', hcol]
  · rw [foldl_afterPair_objects, setProgress_objects]
    simp [pairCount]

/-- C9 at a sheet of six columns: two identifiers, none for the sixth column. -/
theorem readDfDb_one_identifier_per_pair_witness :
    ∃ st2 res, readDfDb sampleDoubles docTwoPairs emptyModel = .ok (st2, res) ∧
      res.status = 0 ∧
      res.matlist.length = ((sheetTwoPairs.columnCount - 1) / 2).toNat ∧
      (∀ j : Nat, 1 ≤ j → j ≤ ((sheetTwoPairs.columnCount - 1) / 2).toNat →
        res.matlist[j - 1]? = some (headerName sampleDoubles sheetTwoPairs (2 * (j : Int)))) ∧
      st2.objects.length = emptyModel.objects.length +
        ((sheetTwoPairs.columnCount - 1) / 2).toNat :=
  readDfDb_one_identifier_per_pair sampleDoubles docTwoPairs sheetTwoPairs emptyModel
    ⟨rfl, by decide, rfl, by decide, by decide, by decide⟩
theorem getElem?_append_map_range {α : Type} (l : List α) (f : Nat → α) (n j : Nat)
    (hj : j < n) : (l ++ (List.range n).map f)[l.length + j]? = some (f j) := by
  rw [List.getElem?_append_right (by omega)]
  simp [hj]

/-! ### C10: blank and absent cells -/

/-- The values `readDfDb` ingests: for a workbook that can be ingested, whatever its
data cells hold, `readDfDb` returns status 0, and the record constructed for each
column pair has n and k lists of exactly `maxRow - 1` entries, the entry of data row
`r` being `cellDouble` of the cell at that row: zero when the cell is absent, zero
when it is blank, and the number when `readValue` gives a number (which it does not
for a formula cell). -/
theorem readDfDb_blank_cell_is_zero {D : Type} (env : Doubles D) (doc : Document D)
    (wsheet : Worksheet D) (st : MaterialDbModel D) (h : Ingestible doc wsheet) :
    (∃ st2 res, readDfDb env doc st = .ok (st2, res) ∧ res.status = 0 ∧
      ∀ j : Nat, j < pairCount wsheet.columnCount →
        ∃ rec, constructedAt st2 (st.objects.length + j) = some (.optic rec) ∧
          (rec.n_data.length : Int) = wsheet.rowCount - 1 ∧
          (rec.k_data.length : Int) = wsheet.rowCount - 1 ∧
          ∀ r : Int, 2 ≤ r → r ≤ wsheet.rowCount →
            rec.n_data[(r - 2).toNat]? =
                some (cellDouble env (wsheet.cellAt r (pairColumn j))) ∧
              rec.k_data[(r - 2).toNat]? =
                some (cellDouble env (wsheet.cellAt r (pairColumn j + 1)))) ∧
    cellDouble env none = env.zero ∧
    (∀ cell : Cell D, cell.readValue = .invalid → cellDouble env (some cell) = env.zero) ∧
    (∀ (cell : Cell D) (d : D), cell.readValue = .double d →
      cellDouble env (some cell) = d) := by
  have hrows := h.rows
  refine ⟨⟨_, _, readDfDb_run env doc wsheet st h, rfl, ?_⟩, rfl, ?_, ?_⟩
  · intro j hj
    refine ⟨pairRecord env wsheet j, ?_, ?_, ?_, ?_⟩
    · unfold constructedAt
      rw [foldl_afterPair_objects, setProgress_objects, List.get?_eq_getElem?,
        getElem?_append_map_range _ _ _ _ hj]
      rfl
    · simp only [pairRecord, columnValues_length]
      omega
    · simp only [pairRecord, columnValues_length]
      omega
    · intro r h2 hr
      have hlt : (r - 2).toNat < (wsheet.rowCount - 1).toNat := by omega
      have hrow : (((r - 2).toNat : Nat) : Int) + 2 = r := by omega
      simp only [pairRecord, columnValues, List.getElem?_map, List.getElem?_range hlt,
        Option.map_some', hrow, and_self]
  · intro cell hcell
    simp [cellDouble, hcell, QVariant.toDouble]
  · intro cell d hcell
    simp [cellDouble, hcell, QVariant.toDouble]

/-- The values `readDfDb` ingests, at a sheet whose last row has an absent n cell
and a blank k cell. -/
theorem readDfDb_blank_cell_is_zero_witness :
    (sheetTwoPairs.cellAt 3 2 = none ∧ sheetTwoPairs.cellAt 3 3 = some blankCell) ∧
    (∃ st2 res, readDfDb sampleDoubles docTwoPairs emptyModel = .ok (st2, res) ∧
      res.status = 0 ∧
      ∀ j : Nat, j < pairCount sheetTwoPairs.columnCount →
        ∃ rec, constructedAt st2 (emptyModel.objects.length + j) = some (.optic rec) ∧
          (rec.n_data.length : Int) = sheetTwoPairs.rowCount - 1 ∧
          (rec.k_data.length : Int) = sheetTwoPairs.rowCount - 1 ∧
          ∀ r : Int, 2 ≤ r → r ≤ sheetTwoPairs.rowCount →
            rec.n_data[(r - 2).toNat]? =
                some (cellDouble sampleDoubles (sheetTwoPairs.cellAt r (pairColumn j))) ∧
              rec.k_data[(r - 2).toNat]? =
                some (cellDouble sampleDoubles (sheetTwoPairs.cellAt r (pairColumn j + 1)))) :=
  ⟨by decide,
    (readDfDb_blank_cell_is_zero sampleDoubles docTwoPairs sheetTwoPairs emptyModel
      ⟨rfl, by decide, rfl, by decide, by decide, by decide⟩).1⟩

/-- C10 at a sheet whose data cells are formula cells: the n cell of row 2 holds the
number 7 and `readValue()` gives the text of its formula, so the value ingested for it is
0, not 7; the wavelength cell of the same row, a formula cell too, is read through
`value()` and ingested as its number. The import returns status 0 and the lists have
`maxRow - 1 = 1` entry. -/
theorem readDfDb_formula_cell_read_as_zero :
    sheetFormula.cellAt 2 2 = some ⟨.double 7, .string "=2*3.5"⟩ ∧
    sheetFormula.cellAt 2 1 = some ⟨.double (mkRat 3 10000000), .string "=3/10000000"⟩ ∧
    cellWavelength sampleDoubles (sheetFormula.cellAt 2 1) = 300 ∧
    cellDouble sampleDoubles (sheetFormula.cellAt 2 2) = 0 ∧
    ∃ st2, readDfDb sampleDoubles docFormula emptyModel = .ok (st2, ⟨0, ["Si"]⟩) ∧
      constructedAt st2 0 =
        some (.optic ⟨"Si", [300], [0], [300], [mkRat 1 10]⟩) := by
  refine ⟨by decide, by decide, by decide, by decide,
    (List.range (pairCount sheetFormula.columnCount)).foldl
      (afterPair sampleDoubles sheetFormula)
      (setProgress emptyModel (Int.tdiv 1 sheetFormula.columnCount)), ?_, ?_⟩
  · rw [readDfDb_run sampleDoubles docFormula sheetFormula emptyModel
      ⟨rfl, by decide, rfl, by decide, by decide, by decide⟩]
    exact congrArg (fun l => Except.ok (_, ImportResult.mk 0 l)) (by decide)
  · decide

/-! ### C2: what the maps hold -/

/-- The objects constructed by the column loop have all been destroyed. -/
theorem readDfDb_entries_dangle {D : Type} (env : Doubles D) (doc : Document D)
    (wsheet : Worksheet D) (st : MaterialDbModel D) (h : Ingestible doc wsheet) :
    ∃ st2 res, readDfDb env doc st = .ok (st2, res) ∧
      ∀ j : Nat, j < pairCount wsheet.columnCount →
        deref st2 (st.objects.length + j) = none := by
  refine ⟨_, _, readDfDb_run env doc wsheet st h, ?_⟩
  intro j hj
  unfold deref
  rw [foldl_afterPair_objects, setProgress_objects, List.get?_eq_getElem?,
    getElem?_append_map_range _ _ _ _ hj]

/-- C2 at a sheet with the column pairs `Si` and `GaAs`, and at an alloy material:
after a successful import the entry of `Si` in `m_list` is the address 0, the record
constructed there holds the sequences read for the pair, but its lifetime has ended
with the loop iteration, so the entry dangles; likewise the entry of `GaAs`, and the
entry that `readSolcoreDb` inserts into `m_comp_list` for the alloy `AlGaAs`. -/
theorem import_store_entries_dangle :
    (∃ st2, readDfDb sampleDoubles docTwoPairs emptyModel = .ok (st2, ⟨0, ["Si", "GaAs"]⟩) ∧
      qmapFind "Si" st2.m_list = some 0 ∧
      constructedAt st2 0 = some (.optic ⟨"Si", [300, 400], [mkRat 7 2, 0],
        [300, 400], [mkRat 1 10, 0]⟩) ∧
      deref st2 0 = none ∧
      qmapFind "GaAs" st2.m_list = some 1 ∧ deref st2 1 = none) ∧
    (readSolcoreDb sampleDoubles dbOneFraction emptyModel).2.status = 0 ∧
    qmapFind "AlGaAs" (readSolcoreDb sampleDoubles dbOneFraction emptyModel).1.m_comp_list =
      some 0 ∧
    constructedAt (readSolcoreDb sampleDoubles dbOneFraction emptyModel).1 0 =
      some (.comp ⟨"AlGaAs", [(0, [300])], [(0, [mkRat 7 2])],
        [(0, [300])], [(0, [mkRat 7 2])]⟩) ∧
    deref (readSolcoreDb sampleDoubles dbOneFraction emptyModel).1 0 = none := by
  refine ⟨⟨(List.range (pairCount sheetTwoPairs.columnCount)).foldl
      (afterPair sampleDoubles sheetTwoPairs)
      (setProgress emptyModel (Int.tdiv 1 sheetTwoPairs.columnCount)), ?_, ?_⟩, ?_⟩
  · rw [readDfDb_run sampleDoubles docTwoPairs sheetTwoPairs emptyModel
      ⟨rfl, by decide, rfl, by decide, by decide, by decide⟩]
    exact congrArg (fun l => Except.ok (_, ImportResult.mk 0 l)) (by decide)
  · decide
  · decide
/-! ### C7: identifiers that occur twice -/

/-- C7, as stated, fails: for a sheet whose two column pairs both derive the
identifier `Si`, `readDfDb` returns status 0 with the list `Si`, `Si`, and the only
entry of `m_list` is the address of the record of the second pair; and a successful
`readSolcoreDb` over one alloy material with one file under `n` and one under `k`
returns the name `AlGaAs0` twice. -/
theorem import_duplicate_identifier_accepted :
    (headerName sampleDoubles sheetDuplicate 2 = "Si" ∧
      headerName sampleDoubles sheetDuplicate 4 = "Si") ∧
    (∃ st2, readDfDb sampleDoubles docDuplicate emptyModel = .ok (st2, ⟨0, ["Si", "Si"]⟩) ∧
      st2.m_list = [("Si", 1)] ∧
      constructedAt st2 1 = some (.optic ⟨"Si", [300], [mkRat 18 5], [300], [mkRat 1 5]⟩)) ∧
    (readSolcoreDb sampleDoubles dbOneFraction emptyModel).2 =
      ⟨0, ["AlGaAs0", "AlGaAs0"]⟩ := by
  refine ⟨by decide, ⟨(List.range (pairCount sheetDuplicate.columnCount)).foldl
      (afterPair sampleDoubles sheetDuplicate)
      (setProgress emptyModel (Int.tdiv 1 sheetDuplicate.columnCount)), ?_, ?_⟩, by decide⟩
  · rw [readDfDb_run sampleDoubles docDuplicate sheetDuplicate emptyModel
      ⟨rfl, by decide, rfl, by decide, by decide, by decide⟩]
    exact congrArg (fun l => Except.ok (_, ImportResult.mk 0 l)) (by decide)
  · decide

/-- C7, amended: no import checks for duplicates. For a workbook that can be ingested,
`readDfDb` returns status 0 and lists one identifier per column pair, in column order,
an identifier as often as pairs derive it; the entry of `m_list` for an identifier is
the address of the record constructed for the last pair that derives it. When the ini
file opens and no material fails, `readSolcoreDb` returns status 0 and lists one name
per data file: for each alloy material the files of `n`, then the files of `k`. -/
theorem import_lists_one_name_per_item {D : Type} (env : Doubles D) (doc : Document D)
    (wsheet : Worksheet D) (st : MaterialDbModel D) (db : SolcoreDb)
    (st1 : MaterialDbModel D) (h : Ingestible doc wsheet) (hini : db.iniOpens = true)
    (hall : allIngest db db.mat_map) :
    (∃ st2 res, readDfDb env doc st = .ok (st2, res) ∧ res.status = 0 ∧
      res.matlist = (List.range (pairCount wsheet.columnCount)).map
        (fun (j : Nat) => headerName env wsheet (pairColumn j)) ∧
      ∀ j : Nat, j < pairCount wsheet.columnCount →
        (∀ i : Nat, j < i → i < pairCount wsheet.columnCount →
          headerName env wsheet (pairColumn i) ≠ headerName env wsheet (pairColumn j)) →
        qmapFind (headerName env wsheet (pairColumn j)) st2.m_list =
            some (st.objects.length + j) ∧
          constructedAt st2 (st.objects.length + j) =
            some (.optic (pairRecord env wsheet j))) ∧
    (readSolcoreDb env db st1).2 = ⟨0, db.mat_map.flatMap (namesOfMaterial db)⟩ := by
  refine ⟨⟨_, _, readDfDb_run env doc wsheet st h, rfl, rfl, ?_⟩, ?_⟩
  · intro j hj hlast
    refine ⟨?_, ?_⟩
    · have hfind := foldl_afterPair_find env wsheet (pairCount wsheet.columnCount)
        (setProgress st (Int.tdiv 1 wsheet.columnCount)) j hj hlast
      rw [setProgress_objects] at hfind
      exact hfind
    · unfold constructedAt
      rw [foldl_afterPair_objects, setProgress_objects, List.get?_eq_getElem?,
        getElem?_append_map_range _ _ _ _ hj]
      rfl
  · rw [readSolcoreDb_of_iniOpens env db st1 hini,
      materialLoop_ok env db db.mat_map 0 st1 [] (by simp) hall]
    simp

/-- C7, amended, at the sheet whose two pairs derive `Si` and at the alloy material
with one fraction. -/
theorem import_lists_one_name_per_item_witness :
    (∃ st2 res, readDfDb sampleDoubles docDuplicate emptyModel = .ok (st2, res) ∧
      res.status = 0 ∧
      res.matlist = (List.range (pairCount sheetDuplicate.columnCount)).map
        (fun (j : Nat) => headerName sampleDoubles sheetDuplicate (pairColumn j)) ∧
      ∀ j : Nat, j < pairCount sheetDuplicate.columnCount →
        (∀ i : Nat, j < i → i < pairCount sheetDuplicate.columnCount →
          headerName sampleDoubles sheetDuplicate (pairColumn i) ≠
            headerName sampleDoubles sheetDuplicate (pairColumn j)) →
        qmapFind (headerName sampleDoubles sheetDuplicate (pairColumn j)) st2.m_list =
            some (emptyModel.objects.length + j) ∧
          constructedAt st2 (emptyModel.objects.length + j) =
            some (.optic (pairRecord sampleDoubles sheetDuplicate j))) ∧
    (readSolcoreDb sampleDoubles dbOneFraction emptyModel).2 =
      ⟨0, dbOneFraction.mat_map.flatMap (namesOfMaterial dbOneFraction)⟩ :=
  import_lists_one_name_per_item sampleDoubles docDuplicate sheetDuplicate emptyModel
    dbOneFraction emptyModel ⟨rfl, by decide, rfl, by decide, by decide, by decide⟩ rfl
    (by decide)
/-! ### C11: the sheet that is read -/

/-- C11 at a workbook whose first sheet is `cover` and whose second sheet is `data`:
`readDfDb` finds the sheet `data`, then makes the sheet with index 0 the active one and
reads that: the identifier returned and the record built are those of `cover` (`Ge`),
none of the identifiers of `data` (`Si`, `GaAs`) is returned; with the same `data`
sheet as only sheet the identifiers are `Si` and `GaAs`. -/
theorem readDfDb_reads_first_sheet :
    (docDataSecond.sheet "data").isSome = true ∧
    docDataSecond.sheets.lookup "data" = docTwoPairs.sheets.lookup "data" ∧
    headerName sampleDoubles sheetTwoPairs 2 = "Si" ∧
    headerName sampleDoubles sheetTwoPairs 4 = "GaAs" ∧
    (∃ st2, readDfDb sampleDoubles docDataSecond emptyModel = .ok (st2, ⟨0, ["Ge"]⟩) ∧
      constructedAt st2 0 =
        some (.optic ⟨"Ge", [500], [4], [500], [mkRat 1 2]⟩) ∧
      constructedAt st2 1 = none) ∧
    (∃ st3, readDfDb sampleDoubles docTwoPairs emptyModel =
      .ok (st3, ⟨0, ["Si", "GaAs"]⟩)) := by
  refine ⟨by decide, rfl, by decide, by decide,
    ⟨(List.range (pairCount sheetCover.columnCount)).foldl
      (afterPair sampleDoubles sheetCover)
      (setProgress emptyModel (Int.tdiv 1 sheetCover.columnCount)), ?_, ?_⟩,
    ⟨(List.range (pairCount sheetTwoPairs.columnCount)).foldl
      (afterPair sampleDoubles sheetTwoPairs)
      (setProgress emptyModel (Int.tdiv 1 sheetTwoPairs.columnCount)), ?_⟩⟩
  · rw [readDfDb_run sampleDoubles docDataSecond sheetCover emptyModel
      ⟨rfl, by decide, rfl, by decide, by decide, by decide⟩]
    exact congrArg (fun l => Except.ok (_, ImportResult.mk 0 l)) (by decide)
  · decide
  · rw [readDfDb_run sampleDoubles docTwoPairs sheetTwoPairs emptyModel
      ⟨rfl, by decide, rfl, by decide, by decide, by decide⟩]
    exact congrArg (fun l => Except.ok (_, ImportResult.mk 0 l)) (by decide)

/-! ### C12: a workbook that cannot be loaded or has no `data` sheet -/

/-- C12: for a workbook that cannot be loaded `readDfDb` returns status 1, for a
loadable workbook without a sheet named `data` it returns status 2, both with an empty
identifier list; the model returned is the model before the call, so the store is
unchanged and no progress value has been emitted. -/
theorem readDfDb_unloadable_or_sheet_missing {D : Type} (env : Doubles D) (doc : Document D)
    (st : MaterialDbModel D) (h : doc.load = false ∨ doc.sheet "data" = none) :
    readDfDb env doc st = .ok (st, ⟨if doc.load = true then 2 else 1, []⟩) := by
  unfold readDfDb
  cases hl : doc.load with
  | false => simp
  | true =>
    rcases h with h | h
    · rw [hl] at h
      exact absurd h (by decide)
    · simp [h]

/-- C12 at a workbook that cannot be loaded and at a workbook whose only sheet is
named `Sheet1`. -/
theorem readDfDb_unloadable_or_sheet_missing_witness :
    (docUnloadable.load = false ∧
      readDfDb sampleDoubles docUnloadable emptyModel = .ok (emptyModel, ⟨1, []⟩)) ∧
    (docNoData.load = true ∧ docNoData.sheet "data" = none ∧
      readDfDb sampleDoubles docNoData emptyModel = .ok (emptyModel, ⟨2, []⟩)) :=
  ⟨⟨rfl, readDfDb_unloadable_or_sheet_missing sampleDoubles docUnloadable emptyModel
      (Or.inl rfl)⟩,
    ⟨rfl, rfl, readDfDb_unloadable_or_sheet_missing sampleDoubles docNoData emptyModel
      (Or.inr rfl)⟩⟩
/-! ### C13: a sheet with fewer than two rows or columns -/

theorem setProgress_m_list {D : Type} (st : MaterialDbModel D) (q : Int) :
    (setProgress st q).m_list = st.m_list := by
  unfold setProgress
  split <;> rfl

/-- C13, as stated, fails: for a sheet that has only the header row (1 row, 3 columns)
`readDfDb` returns the success status 0, with the identifier `Si` imported and a record
with empty curves registered; and for an empty sheet (0 rows, 0 columns) the vector
`wls` is sized with the length `maxRow - 1 = -1`, which throws. -/
theorem readDfDb_degenerate_sheet_not_rejected :
    (sheetHeaderOnly.rowCount < 2 ∧
      ∃ st2, readDfDb sampleDoubles docHeaderOnly emptyModel = .ok (st2, ⟨0, ["Si"]⟩) ∧
        qmapFind "Si" st2.m_list = some 0 ∧
        constructedAt st2 0 = some (.optic ⟨"Si", [], [], [], []⟩)) ∧
    (sheetEmpty.rowCount = 0 ∧ sheetEmpty.columnCount = 0 ∧
      readDfDb sampleDoubles docEmpty emptyModel = .error .lengthError) := by
  refine ⟨⟨by decide, (List.range (pairCount sheetHeaderOnly.columnCount)).foldl
      (afterPair sampleDoubles sheetHeaderOnly)
      (setProgress emptyModel (Int.tdiv 1 sheetHeaderOnly.columnCount)), ?_, ?_⟩,
    rfl, rfl, ?_⟩
  · rw [readDfDb_run sampleDoubles docHeaderOnly sheetHeaderOnly emptyModel
      ⟨rfl, by decide, rfl, by decide, by decide, by decide⟩]
    exact congrArg (fun l => Except.ok (_, ImportResult.mk 0 l)) (by decide)
  · decide
  · unfold readDfDb
    rfl

/-- C13, amended: `readDfDb` does not validate the dimension of the sheet. For a
loadable workbook with a `data` sheet whose sheet read has at least one row, at least
one column and the header cells of its column pairs, it returns the success status 0
also when the sheet has fewer than 2 rows or fewer than 2 columns: with fewer than 2
rows the record of every column pair has empty curves, and with fewer than 2 columns
nothing is imported (no identifier, `m_list` unchanged, no record constructed). -/
theorem readDfDb_degenerate_dimension_imports {D : Type} (env : Doubles D)
    (doc : Document D) (wsheet : Worksheet D) (st : MaterialDbModel D)
    (h : Ingestible doc wsheet) :
    ∃ st2 res, readDfDb env doc st = .ok (st2, res) ∧ res.status = 0 ∧
      (wsheet.rowCount < 2 → ∀ j : Nat, j < pairCount wsheet.columnCount →
        constructedAt st2 (st.objects.length + j) =
          some (.optic ⟨headerName env wsheet (pairColumn j), [], [], [], []⟩)) ∧
      (wsheet.columnCount < 2 →
        res.matlist = [] ∧ st2.m_list = st.m_list ∧ st2.objects = st.objects) := by
  have hrows := h.rows
  have hcols := h.cols
  refine ⟨_, _, readDfDb_run env doc wsheet st h, rfl, ?_, ?_⟩
  · intro hr j hj
    have hz : (wsheet.rowCount - 1).toNat = 0 := by omega
    unfold constructedAt
    rw [foldl_afterPair_objects, setProgress_objects, List.get?_eq_getElem?,
      getElem?_append_map_range _ _ _ _ hj]
    simp [pairRecord, columnValues, wavelengthColumn, hz]
  · intro hc
    have hz : pairCount wsheet.columnCount = 0 := by unfold pairCount; omega
    simp [hz, setProgress_m_list, setProgress_objects]

/-- C13, amended, at the sheet that has only the header row. -/
theorem readDfDb_degenerate_dimension_imports_witness :
    sheetHeaderOnly.rowCount < 2 ∧
    ∃ st2 res, readDfDb sampleDoubles docHeaderOnly emptyModel = .ok (st2, res) ∧
      res.status = 0 ∧
      (sheetHeaderOnly.rowCount < 2 → ∀ j : Nat, j < pairCount sheetHeaderOnly.columnCount →
        constructedAt st2 (emptyModel.objects.length + j) =
          some (.optic ⟨headerName sampleDoubles sheetHeaderOnly (pairColumn j),
            [], [], [], []⟩)) ∧
      (sheetHeaderOnly.columnCount < 2 →
        res.matlist = [] ∧ st2.m_list = emptyModel.m_list ∧
          st2.objects = emptyModel.objects) :=
  ⟨by decide, readDfDb_degenerate_dimension_imports sampleDoubles docHeaderOnly
    sheetHeaderOnly emptyModel ⟨rfl, by decide, rfl, by decide, by decide, by decide⟩⟩
/-! ### C14: the progress values -/

/-- C14 at three successful imports. For the sheet of 6 columns the quotients
`1 / 6`, `3 / 6` and `5 / 6` are all 0: both column pairs are processed, the progress
stays 0 and nothing is emitted. For the sheet of 5 columns the progress is still 0 after
the first of the two pairs and the only value emitted is `5 / 5 = 1`. For three alloy
materials `readSolcoreDb` sets `0 / 3`, `1 / 3` and `2 / 3`, all 0, and emits nothing.
No call ends with the value 100. -/
theorem import_progress_truncated :
    (∃ st2, readDfDb sampleDoubles docTwoPairs emptyModel = .ok (st2, ⟨0, ["Si", "GaAs"]⟩) ∧
      st2.import_progress = 0 ∧ st2.progressChanged = []) ∧
    (∃ st2, readDfDb sampleDoubles docDuplicate emptyModel = .ok (st2, ⟨0, ["Si", "Si"]⟩) ∧
      (afterPair sampleDoubles sheetDuplicate
        (setProgress emptyModel (Int.tdiv 1 sheetDuplicate.columnCount)) 0).import_progress = 0 ∧
      st2.import_progress = 1 ∧ st2.progressChanged = [1]) ∧
    (readSolcoreDb sampleDoubles dbThreeAlloys emptyModel).2.status = 0 ∧
    (readSolcoreDb sampleDoubles dbThreeAlloys emptyModel).1.import_progress = 0 ∧
    (readSolcoreDb sampleDoubles dbThreeAlloys emptyModel).1.progressChanged = [] := by
  refine ⟨⟨(List.range (pairCount sheetTwoPairs.columnCount)).foldl
      (afterPair sampleDoubles sheetTwoPairs)
      (setProgress emptyModel (Int.tdiv 1 sheetTwoPairs.columnCount)), ?_, ?_⟩,
    ⟨(List.range (pairCount sheetDuplicate.columnCount)).foldl
      (afterPair sampleDoubles sheetDuplicate)
      (setProgress emptyModel (Int.tdiv 1 sheetDuplicate.columnCount)), ?_, ?_⟩, ?_⟩
  · rw [readDfDb_run sampleDoubles docTwoPairs sheetTwoPairs emptyModel
      ⟨rfl, by decide, rfl, by decide, by decide, by decide⟩]
    exact congrArg (fun l => Except.ok (_, ImportResult.mk 0 l)) (by decide)
  · decide
  · rw [readDfDb_run sampleDoubles docDuplicate sheetDuplicate emptyModel
      ⟨rfl, by decide, rfl, by decide, by decide, by decide⟩]
    exact congrArg (fun l => Except.ok (_, ImportResult.mk 0 l)) (by decide)
  · decide
  · decide

/-! ### C15: the values passed to `progressChanged` -/

theorem setProgress_view {D : Type} (st : MaterialDbModel D) (v : Int) :
    progressView (setProgress st v) = stepProgress (progressView st) v := by
  unfold setProgress stepProgress progressView
  split <;> simp_all

theorem afterPair_view {D : Type} (env : Doubles D) (wsheet : Worksheet D)
    (st : MaterialDbModel D) (j : Nat) :
    progressView (afterPair env wsheet st j) =
      stepProgress (progressView st) (Int.tdiv (pairColumn j + 1) wsheet.columnCount) := by
  unfold afterPair
  rw [setProgress_view]
  rfl

theorem afterMaterial_view {D : Type} (env : Doubles D) (db : SolcoreDb)
    (st : MaterialDbModel D) (m : String × MatDir) :
    progressView (afterMaterial env db st m) = stepProgress (progressView st) 0 := by
  unfold afterMaterial
  split
  · rw [setProgress_view]
    rfl
  · rw [setProgress_view]

theorem foldl_afterPair_view {D : Type} (env : Doubles D) (wsheet : Worksheet D)
    (l : List Nat) (st : MaterialDbModel D) :
    progressView (l.foldl (afterPair env wsheet) st) =
      (l.map (fun (j : Nat) => Int.tdiv (pairColumn j + 1) wsheet.columnCount)).foldl
        stepProgress (progressView st) := by
  induction l generalizing st with
  | nil => rfl
  | cons j rest ih => simp [List.foldl_cons, ih, afterPair_view]

theorem foldl_afterMaterial_view {D : Type} (env : Doubles D) (db : SolcoreDb)
    (l : List (String × MatDir)) (st : MaterialDbModel D) :
    progressView (l.foldl (afterMaterial env db) st) =
      (l.map (fun _ => (0 : Int))).foldl stepProgress (progressView st) := by
  induction l generalizing st with
  | nil => rfl
  | cons m rest ih => simp [List.foldl_cons, ih, afterMaterial_view]

/-- The values emitted while a list of values is set form a sublist of that list. -/
theorem foldl_stepProgress_sublist (vs : List Int) :
    ∀ p : Int × List Int, ∃ em : List Int,
      (vs.foldl stepProgress p).2 = p.2 ++ em ∧ List.Sublist em vs := by
  induction vs with
  | nil => exact fun p => ⟨[], by simp, List.Sublist.refl _⟩
  | cons v rest ih =>
    intro p
    by_cases hv : p.1 ≠ v
    · obtain ⟨em, he, hs⟩ := ih (v, p.2 ++ [v])
      refine ⟨v :: em, ?_, List.Sublist.cons₂ v hs⟩
      simp only [List.foldl_cons, stepProgress, hv, if_true, ne_eq, not_false_eq_true]
      simpa [stepProgress] using he
    · obtain ⟨em, he, hs⟩ := ih p
      refine ⟨em, ?_, List.Sublist.cons v hs⟩
      have hstep : stepProgress p v = p := by simp [stepProgress, hv]
      simp only [List.foldl_cons, hstep]
      exact he

/-- Setting a non-decreasing list of values between 0 and 100 emits a non-decreasing
list of values between 0 and 100. -/
theorem emitted_sorted_bounded (vs : List Int) (p : Int × List Int)
    (hs : vs.Pairwise (fun a b => a ≤ b)) (hb : ∀ x ∈ vs, 0 ≤ x ∧ x ≤ 100) :
    ∃ em : List Int, (vs.foldl stepProgress p).2 = p.2 ++ em ∧
      em.Pairwise (fun a b => a ≤ b) ∧ ∀ x ∈ em, 0 ≤ x ∧ x ≤ 100 := by
  obtain ⟨em, he, hsub⟩ := foldl_stepProgress_sublist vs p
  exact ⟨em, he, List.Pairwise.sublist hsub hs, fun x hx => hb x (hsub.subset hx)⟩

/-- The quotients set by `readDfDb`: `1 / maxCol`, then `(cc + 1) / maxCol` for the
n column `cc` of each pair. They are 0, apart from the last one, which may be 1. -/
theorem readDfDb_quotients (maxCol : Int) (h : 1 ≤ maxCol) :
    (Int.tdiv 1 maxCol :: (List.range (pairCount maxCol)).map
        (fun (j : Nat) => Int.tdiv (pairColumn j + 1) maxCol)).Pairwise (fun a b => a ≤ b) ∧
    ∀ x ∈ Int.tdiv 1 maxCol :: (List.range (pairCount maxCol)).map
        (fun (j : Nat) => Int.tdiv (pairColumn j + 1) maxCol), 0 ≤ x ∧ x ≤ 100 := by
  have hq : ∀ a : Int, 0 ≤ a → a ≤ maxCol →
      (a < maxCol → Int.tdiv a maxCol = 0) ∧ 0 ≤ Int.tdiv a maxCol ∧ Int.tdiv a maxCol ≤ 1 := by
    intro a h0 hle
    by_cases hlt : a < maxCol
    · have hz := Int.tdiv_eq_zero_of_lt h0 hlt
      exact ⟨fun _ => hz, by omega, by omega⟩
    · have ha : a = maxCol := by omega
      have h1 : Int.tdiv a maxCol = 1 := by
        rw [ha]
        exact Int.tdiv_self (by omega)
      exact ⟨fun hc => absurd hc hlt, by omega, by omega⟩
  have hpair : ∀ j : Nat, j < pairCount maxCol →
      0 ≤ pairColumn j + 1 ∧ pairColumn j + 1 ≤ maxCol := by
    intro j hj
    have := pairColumn_lt maxCol j hj
    unfold pairColumn at *
    omega
  refine ⟨?_, ?_⟩
  · rw [List.pairwise_cons]
    refine ⟨?_, ?_⟩
    · intro x hx
      obtain ⟨j, hj, rfl⟩ := List.mem_map.mp hx
      have hjn : j < pairCount maxCol := List.mem_range.mp hj
      have hp := hpair j hjn
      have h3 : (1 : Int) < maxCol := by unfold pairColumn at hp; omega
      have hz := (hq 1 (by omega) h).1 h3
      have := (hq (pairColumn j + 1) hp.1 hp.2).2.1
      omega
    · rw [List.pairwise_map]
      refine List.Pairwise.imp_of_mem ?_ (List.pairwise_lt_range (pairCount maxCol))
      intro a b ha hb hab
      have han : a < pairCount maxCol := List.mem_range.mp ha
      have hbn : b < pairCount maxCol := List.mem_range.mp hb
      have hpa := hpair a han
      have hpb := hpair b hbn
      have hlt : pairColumn a + 1 < maxCol := by unfold pairColumn at *; omega
      have hz := (hq (pairColumn a + 1) hpa.1 hpa.2).1 hlt
      have := (hq (pairColumn b + 1) hpb.1 hpb.2).2.1
      omega
  · intro x hx
    rcases List.mem_cons.mp hx with rfl | hx
    · have := hq 1 (by omega) h
      omega
    · obtain ⟨j, hj, rfl⟩ := List.mem_map.mp hx
      have hp := hpair j (List.mem_range.mp hj)
      have := hq (pairColumn j + 1) hp.1 hp.2
      omega
/-- A column loop that returns has found the header cell of every pair it visited. -/
theorem columnLoop_ok_headers {D : Type} (env : Doubles D) (wsheet : Worksheet D)
    (hrows : 1 ≤ wsheet.rowCount) (d : Nat) :
    ∀ (j0 : Nat) (st : MaterialDbModel D) (mat_list : List String)
      (r : MaterialDbModel D × List String),
      j0 + d = pairCount wsheet.columnCount →
      columnLoop env wsheet wsheet.rowCount wsheet.columnCount (wavelengthColumn env wsheet)
          (pairColumn j0) st mat_list = .ok r →
      ∀ j : Nat, j0 ≤ j → j < pairCount wsheet.columnCount →
        (wsheet.cellAt 1 (pairColumn j)).isSome = true := by
  induction d with
  | zero =>
    intro j0 st mat_list r hj hok j h1 h2
    omega
  | succ d ih =>
    intro j0 st mat_list r hj hok j h1 h2
    have hlt := pairColumn_lt wsheet.columnCount j0 (by omega)
    cases hcell : wsheet.cellAt 1 (pairColumn j0) with
    | none =>
      rw [columnLoop] at hok
      simp [hlt, hcell] at hok
    | some header =>
      have hh : (wsheet.cellAt 1 (pairColumn j0)).isSome = true := by simp [hcell]
      rw [columnLoop_step env wsheet j0 st mat_list hrows (by omega) hh] at hok
      by_cases hjj : j = j0
      · rw [hjj]
        exact hh
      · exact ih (j0 + 1) _ _ r (by omega) hok j (by omega) h2

/-- A call of `readDfDb` that returns either leaves the model as it was, or has read
a sheet that can be ingested. -/
theorem readDfDb_ok_cases {D : Type} (env : Doubles D) (doc : Document D)
    (st st2 : MaterialDbModel D) (res : ImportResult)
    (hcols : ∀ ws : Worksheet D, doc.activeSheet = some ws → 0 ≤ ws.columnCount)
    (hok : readDfDb env doc st = .ok (st2, res)) :
    st2 = st ∨ ∃ ws : Worksheet D, Ingestible doc ws := by
  by_cases hload : doc.load = true
  · cases hdata : doc.sheet "data" with
    | none =>
      rw [readDfDb_unloadable_or_sheet_missing env doc st (Or.inr hdata)] at hok
      left
      injection hok with hok
      injection hok with h1 h2
      exact h1.symm
    | some data =>
      cases hact : doc.activeSheet with
      | none =>
        left
        simp only [readDfDb, hload, hdata, hact] at hok
        simp at hok
        exact hok.1.symm
      | some ws =>
        right
        have hc0 := hcols ws hact
        by_cases hrow : ws.rowCount - 1 < 0
        · simp only [readDfDb, hload, hdata, hact] at hok
          simp [hrow] at hok
        · by_cases hcol : ws.columnCount = 0
          · simp only [readDfDb, hload, hdata, hact] at hok
            simp [hrow, hcol] at hok
          · have hrows : 1 ≤ ws.rowCount := by omega
            have h2 : pairColumn 0 = 2 := by simp [pairColumn]
            cases hloop : columnLoop env ws ws.rowCount ws.columnCount
                (wavelengthColumn env ws) (pairColumn 0)
                (setProgress st (Int.tdiv 1 ws.columnCount)) [] with
            | error e =>
              rw [h2] at hloop
              unfold readDfDb at hok
              simp only [hload, hdata, hact, hrow, hcol, readWls_eq env ws hrows, hloop] at hok
              simp at hok
            | ok r =>
              refine ⟨ws, hload, by simp [hdata], hact, hrows, by omega, ?_⟩
              intro j hj
              exact columnLoop_ok_headers env ws hrows (pairCount ws.columnCount) 0 _ _ r
                (by simp) hloop j (by omega) hj
  · left
    have hl : doc.load = false := by simpa using hload
    rw [readDfDb_unloadable_or_sheet_missing env doc st (Or.inl hl)] at hok
    injection hok with hok
    injection hok with h1 h2
    exact h1.symm

/-- The model after `readSolcoreDb` is the model after the materials that were
processed without error. -/
theorem readSolcoreDb_state_fold {D : Type} (env : Doubles D) (db : SolcoreDb)
    (st : MaterialDbModel D) :
    ∃ l : List (String × MatDir),
      (readSolcoreDb env db st).1 = l.foldl (afterMaterial env db) st := by
  by_cases hini : db.iniOpens = true
  · rcases first_failure db db.mat_map with hall | ⟨pre, m, post, hl, hpre, hc, hf⟩
    · refine ⟨db.mat_map, ?_⟩
      rw [readSolcoreDb_of_iniOpens env db st hini,
        materialLoop_ok env db db.mat_map 0 st [] (by simp) hall]
    · refine ⟨pre, ?_⟩
      rw [readSolcoreDb_of_iniOpens env db st hini, hl,
        materialLoop_fail env db pre m post 0 st [] (by simp [hl]) hpre hc hf]
  · refine ⟨[], ?_⟩
    rw [readSolcoreDb_of_not_iniOpens env db st (by simpa using hini)]
    rfl

/-- C15: the values passed to `progressChanged` during a call of `readSolcoreDb`, and
during a call of `readDfDb` that returns (the column count reported by the sheet not
being negative), form a non-decreasing sequence of values between 0 and 100;
`setProgress` emits the new value exactly when it differs from the stored one, and
afterwards `getProgress` returns the value set. -/
theorem progress_values_monotone_bounded {D : Type} (env : Doubles D) (db : SolcoreDb)
    (doc : Document D) (st st2 : MaterialDbModel D) (res : ImportResult) (v : Int)
    (hcols : ∀ ws : Worksheet D, doc.activeSheet = some ws → 0 ≤ ws.columnCount)
    (hok : readDfDb env doc st = .ok (st2, res)) :
    (∃ em : List Int,
      (readSolcoreDb env db st).1.progressChanged = st.progressChanged ++ em ∧
      em.Pairwise (fun a b => a ≤ b) ∧ ∀ x ∈ em, 0 ≤ x ∧ x ≤ 100) ∧
    (∃ em : List Int, st2.progressChanged = st.progressChanged ++ em ∧
      em.Pairwise (fun a b => a ≤ b) ∧ ∀ x ∈ em, 0 ≤ x ∧ x ≤ 100) ∧
    (setProgress st v).progressChanged =
      (if st.import_progress ≠ v then st.progressChanged ++ [v] else st.progressChanged) ∧
    getProgress (setProgress st v) = v := by
  refine ⟨?_, ?_, ?_, ?_⟩
  · obtain ⟨l, hl⟩ := readSolcoreDb_state_fold env db st
    have hview := foldl_afterMaterial_view env db l st
    rw [← hl] at hview
    have hzero : l.map (fun _ => (0 : Int)) = List.replicate l.length 0 := by
      simp [List.eq_replicate_iff]
    obtain ⟨em, he, hs, hb⟩ := emitted_sorted_bounded (l.map (fun _ => (0 : Int)))
      (progressView st)
      (by rw [hzero, List.pairwise_replicate]; exact Or.inr (le_refl 0))
      (by
        intro x hx
        rw [hzero] at hx
        have := List.eq_of_mem_replicate hx
        omega)
    refine ⟨em, ?_, hs, hb⟩
    have h2 := congrArg Prod.snd hview
    simp only [progressView] at h2 he
    rw [h2, he]
  · rcases readDfDb_ok_cases env doc st st2 res hcols hok with hst | ⟨ws, hing⟩
    · exact ⟨[], by simp [hst], List.Pairwise.nil, fun x hx => by simp at hx⟩
    · have hrun := readDfDb_run env doc ws st hing
      rw [hrun] at hok
      injection hok with hok
      injection hok with h1 h2
      have hq := readDfDb_quotients ws.columnCount hing.cols
      obtain ⟨em, he, hs, hb⟩ := emitted_sorted_bounded _ (progressView st) hq.1 hq.2
      refine ⟨em, ?_, hs, hb⟩
      have hview := foldl_afterPair_view env ws (List.range (pairCount ws.columnCount))
        (setProgress st (Int.tdiv 1 ws.columnCount))
      rw [h1, setProgress_view] at hview
      have h3 := congrArg Prod.snd hview
      simp only [progressView, List.foldl_cons] at h3 he
      rw [h3, he]
  · unfold setProgress
    split <;> rfl
  · unfold getProgress setProgress
    split
    · rfl
    · rename_i hne
      simpa using hne
/-- C15 at the import of three alloy materials, at the import of the sheet of 5
columns, and at the call `setProgress(50)`. -/
theorem progress_values_monotone_bounded_witness :
    ∃ (st2 : MaterialDbModel ℚ) (res : ImportResult),
      (∀ ws : Worksheet ℚ, docDuplicate.activeSheet = some ws → 0 ≤ ws.columnCount) ∧
      readDfDb sampleDoubles docDuplicate emptyModel = .ok (st2, res) ∧
      (∃ em : List Int,
        (readSolcoreDb sampleDoubles dbThreeAlloys emptyModel).1.progressChanged =
          emptyModel.progressChanged ++ em ∧
        em.Pairwise (fun a b => a ≤ b) ∧ ∀ x ∈ em, 0 ≤ x ∧ x ≤ 100) ∧
      (∃ em : List Int, st2.progressChanged = emptyModel.progressChanged ++ em ∧
        em.Pairwise (fun a b => a ≤ b) ∧ ∀ x ∈ em, 0 ≤ x ∧ x ≤ 100) ∧
      (setProgress emptyModel 50).progressChanged =
        (if emptyModel.import_progress ≠ 50 then emptyModel.progressChanged ++ [50]
          else emptyModel.progressChanged) ∧
      getProgress (setProgress emptyModel 50) = 50 :=
  have hcols : ∀ ws : Worksheet ℚ, docDuplicate.activeSheet = some ws → 0 ≤ ws.columnCount :=
    fun ws h => by
      have hws : sheetDuplicate = ws := Option.some.inj h
      rw [← hws]
      decide
  have hrun := readDfDb_run sampleDoubles docDuplicate sheetDuplicate emptyModel
    ⟨rfl, by decide, rfl, by decide, by decide, by decide⟩
  ⟨_, _, hcols, hrun,
    progress_values_monotone_bounded sampleDoubles dbThreeAlloys docDuplicate emptyModel _ _ 50
      hcols hrun⟩

end OpenSCAPS
